import Mathlib

/-!
Verification of the FortizedSocial social-graph / messaging layer.

The repository ships two backend implementations of the same contract:
* a localStorage engine (`src/unnamed/part_000`), modelled below in
  namespace `LS`;
* a Firebase Realtime Database backend (`src/social.js`, duplicated with a
  session tweak in `src/FortizedSocial-firebase.js`), modelled in
  namespace `FB`.

Both are embedded shallowly: stores become association lists threaded
through explicit state records, JavaScript string operations are written
out over `String.data` character lists (JS strings are compared
code-unit-wise, which for the characters appearing here coincides with
code-point order), and the nondeterministic id / timestamp generation
(`Date.now() + Math.random().toString(36)...`) is made explicit by passing
the generated strings as parameters.
-/

/-- Outcome record `{ ok, msg }` returned by the friend-system calls. -/
structure Result where
  ok : Bool
  msg : String
deriving DecidableEq, Repr

/-- Payload of a notification: either absent, a `{ from }` object, or a
`{ preview }` object — the only shapes the source ever stores. -/
inductive NData where
  | noneData : NData
  | dFrom (u : String) : NData
  | dPreview (p : String) : NData
deriving DecidableEq, Repr

/-- A notification record `{id, type, from, data, read, time}`
(part_000 line 33; social.js lines 181-183). `from` is a Lean keyword,
hence the field name `from_`. -/
structure Notif where
  type : String
  from_ : String
  data : NData
  id : String
  time : String
  read : Bool
deriving DecidableEq, Repr

/-- A chat message `{id, from, text, time, timestamp}`. -/
structure Msg where
  id : String
  from_ : String
  text : String
  time : String
  timestamp : String
deriving DecidableEq, Repr

/-- A bastion channel message: a `Msg` plus the `reactions` map
(emoji → array of usernames), modelled as an association list that keeps
JS object key insertion order. -/
structure BMsg where
  id : String
  from_ : String
  text : String
  time : String
  timestamp : String
  reactions : List (String × List String)
deriving DecidableEq, Repr

/-- Update the first element satisfying `p` (JS `findIndex` + in-place
assignment on the found index). -/
def updFirst {α : Type} (p : α → Bool) (f : α → α) : List α → List α
  | [] => []
  | a :: as => if p a then f a :: as else a :: updFirst p f as

/-- Read a key from an association-list store (`localStorage.getItem` /
Firebase `get` at a child path): the first binding wins, `none` if the key
is absent. -/
def getItem {α : Type} (store : List (String × α)) (key : String) : Option α :=
  (store.find? (fun kv => kv.1 == key)).map Prod.snd

/-- Write a key into an association-list store (`localStorage.setItem` /
Firebase `set` at a child path): replaces the binding in place if present,
otherwise appends it. -/
def setItem {α : Type} (store : List (String × α)) (key : String) (v : α) :
    List (String × α) :=
  if store.any (fun kv => kv.1 == key) then
    updFirst (fun kv => kv.1 == key) (fun kv => (kv.1, v)) store
  else store ++ [(key, v)]

/-- Update the value stored at an existing key (Firebase `update` on a
record that is known to exist: every use in the source first checks the
record is present). -/
def updItem {α : Type} (store : List (String × α)) (key : String) (f : α → α) :
    List (String × α) :=
  updFirst (fun kv => kv.1 == key) (fun kv => (kv.1, f kv.2)) store

/-- JS relational `<` on strings: lexicographic, code-unit-wise.  For the
basic-plane characters used by this app this is code-point order, written
out on the character lists. -/
def charListLt : List Char → List Char → Bool
  | [], [] => false
  | [], _ :: _ => true
  | _ :: _, [] => false
  | a :: as, b :: bs => if a < b then true else if b < a then false else charListLt as bs

/-- `[a, b].sort()` for two strings with the default JS comparator:
swap exactly when `b < a`. -/
def sortPair (a b : String) : String × String :=
  if charListLt b.data a.data then (b, a) else (a, b)

namespace LS

/-- The slice of a user record in `fortized_users` that the social engine
touches (part_000 reads and writes exactly these fields plus
status/activity/lastSeen, which no claim concerns). -/
structure User where
  username : String
  friends : List String
  friendRequestsSent : List String
  friendRequestsReceived : List String
  notifications : List Notif
deriving DecidableEq, Repr

/-- A fresh user record with empty relationship and notification lists. -/
def mkUser (name : String) : User :=
  { username := name, friends := [], friendRequestsSent := [],
    friendRequestsReceived := [], notifications := [] }

/-- The localStorage contents the engine uses: the `fortized_users` array,
the `fortized_dm_*` keys and the `fortized_bastion_*_ch_*` keys.  The two
key families are kept in localStorage insertion order (a fresh `setItem`
appends, an existing key is updated in place), which is the order
`localStorage.key(i)` enumerates. -/
structure State where
  users : List User
  dms : List (String × List Msg)
  channels : List (String × List BMsg)
deriving DecidableEq, Repr

/-- `getUsers().find(u => u.username === name) || null` (part_000 lines 20-22). -/
def findUser (users : List User) (name : String) : Option User :=
  users.find? (fun u => u.username == name)

/-- In-place update of the user at `findIndex(u => u.username === name)`. -/
def updUser (users : List User) (name : String) (f : User → User) : List User :=
  updFirst (fun u => u.username == name) f users

/-- part_000 `getUserByName` on the modelled state. -/
def getUserByName (s : State) (name : String) : Option User :=
  findUser s.users name

/-- The notification record `pushNotification` builds: fresh id and time,
`read = false` (part_000 lines 39-41). -/
def mkNotif (id time type from_ : String) (data : NData) : Notif :=
  { type := type, from_ := from_, data := data, id := id, time := time, read := false }

/-- `users[idx].notifications.unshift(notification)` followed by the
50-entry truncation (part_000 lines 42-44). -/
def pushNotifUpd (n : Notif) (u : User) : User :=
  { u with notifications := (n :: u.notifications).take 50 }

/-- `users[idx].friends.push(other)` guarded by `includes` (part_000 lines
122-123). -/
def addFriendUpd (other : String) (u : User) : User :=
  { u with friends := if u.friends.contains other then u.friends
                      else u.friends ++ [other] }

/-- `friendRequestsReceived.filter(u => u !== other)` (part_000 line 126). -/
def filterReceivedUpd (other : String) (u : User) : User :=
  { u with friendRequestsReceived := u.friendRequestsReceived.filter (fun x => x != other) }

/-- `friendRequestsSent.filter(u => u !== other)` (part_000 line 127). -/
def filterSentUpd (other : String) (u : User) : User :=
  { u with friendRequestsSent := u.friendRequestsSent.filter (fun x => x != other) }

/-- `friendRequestsSent.push(other)` (part_000 line 97). -/
def appendSentUpd (other : String) (u : User) : User :=
  { u with friendRequestsSent := u.friendRequestsSent ++ [other] }

/-- `friendRequestsReceived.push(other)` (part_000 line 100). -/
def appendReceivedUpd (other : String) (u : User) : User :=
  { u with friendRequestsReceived := u.friendRequestsReceived ++ [other] }

/-- part_000 `pushNotification` (lines 34-47): no-op returning `false` if
the target username has no record; otherwise prepends the stamped
notification and truncates the log to the 50 most recent. -/
def pushNotification (id time : String) (targetUsername : String)
    (type from_ : String) (data : NData) (s : State) : State × Bool :=
  if s.users.any (fun u => u.username == targetUsername) then
    let users' := updUser s.users targetUsername (pushNotifUpd (mkNotif id time type from_ data))
    ({ s with users := users' }, true)
  else (s, false)

/-- part_000 `acceptFriendRequest` (lines 113-139): adds each username to
the other's `friends` (idempotently), removes `fromUsername` from my
`friendRequestsReceived` and me from their `friendRequestsSent` — and
nothing else — then notifies the original sender. -/
def acceptFriendRequest (id time : String) (currentUsername fromUsername : String)
    (s : State) : State × Result :=
  if (s.users.any (fun u => u.username == currentUsername))
      && (s.users.any (fun u => u.username == fromUsername)) then
    let users1 := updUser s.users currentUsername (addFriendUpd fromUsername)
    let users2 := updUser users1 fromUsername (addFriendUpd currentUsername)
    let users3 := updUser users2 currentUsername (filterReceivedUpd fromUsername)
    let users4 := updUser users3 fromUsername (filterSentUpd currentUsername)
    let s1 := (pushNotification id time fromUsername "friend_accept" currentUsername
      (NData.dFrom currentUsername) { s with users := users4 }).1
    (s1, { ok := true, msg := "You are now friends with " ++ fromUsername ++ "!" })
  else (s, { ok := false, msg := "User not found." })

/-- part_000 `sendFriendRequest` (lines 67-111): rejects self / unknown
users / already-friends / duplicate outgoing; auto-accepts when the
receiver already sent a request here; otherwise records the pending
request on both sides and notifies the receiver. -/
def sendFriendRequest (id time : String) (fromUsername toUsername : String)
    (s : State) : State × Result :=
  if fromUsername == toUsername then
    (s, { ok := false, msg := "You can't add yourself." })
  else
    match getUserByName s toUsername with
    | none => (s, { ok := false, msg := "User not found." })
    | some _ =>
      match getUserByName s fromUsername with
      | none => (s, { ok := false, msg := "Session error." })
      | some fromUser =>
        if fromUser.friends.contains toUsername then
          (s, { ok := false, msg := "Already friends!" })
        else if fromUser.friendRequestsSent.contains toUsername then
          (s, { ok := false, msg := "Request already sent." })
        else if fromUser.friendRequestsReceived.contains toUsername then
          acceptFriendRequest id time fromUsername toUsername s
        else
          let users1 := updUser s.users fromUsername (appendSentUpd toUsername)
          let users2 := updUser users1 toUsername (appendReceivedUpd fromUsername)
          let s1 := (pushNotification id time toUsername "friend_request" fromUsername
            (NData.dFrom fromUsername) { s with users := users2 }).1
          (s1, { ok := true, msg := "Friend request sent to " ++ toUsername ++ "!" })

/-- part_000 `getDMKey` (lines 175-177):
`'fortized_dm_' + [userA, userB].sort().join('_')`. -/
def getDMKey (userA userB : String) : String :=
  let p := sortPair userA userB
  "fortized_dm_" ++ p.1 ++ "_" ++ p.2

/-- part_000 `sendDMMessage` (lines 184-206): appends the message to the
shared thread key and notifies the receiver with a 60-character preview
(`text.slice(0, 60)`). -/
def sendDMMessage (msgId timeStr timestamp notifId notifTime : String)
    (fromUsername toUsername text : String) (s : State) : State × Msg :=
  let key := getDMKey fromUsername toUsername
  let msgs := (getItem s.dms key).getD []
  let msg : Msg := { id := msgId, from_ := fromUsername, text := text,
                     time := timeStr, timestamp := timestamp }
  let s1 : State := { s with dms := setItem s.dms key (msgs ++ [msg]) }
  let s2 := (pushNotification notifId notifTime toUsername "dm" fromUsername
    (NData.dPreview ((text.data.take 60).asString)) s1).1
  (s2, msg)

/-- JS `String.prototype.split` on a single-character separator. -/
def splitChars (sep : Char) : List Char → List (List Char)
  | [] => [[]]
  | c :: cs =>
    if c == sep then [] :: splitChars sep cs
    else
      match splitChars sep cs with
      | [] => [[c]]
      | g :: gs => (c :: g) :: gs

/-- part_000 `getRecentDMPartners` (lines 208-222): scan the stored keys in
`localStorage.key(i)` order, keep the `fortized_dm_` ones naming this user,
and collect each first part that differs from the username, without
duplicates.  (No recency ordering and no cap: the order is key-creation
order.) -/
def getRecentDMPartners (s : State) (username : String) : List String :=
  (s.dms.map Prod.fst).foldl (fun partners key =>
    if key.data.take 12 == "fortized_dm_".data then
      let parts := (splitChars '_' (key.data.drop 12)).map List.asString
      if parts.contains username then
        match parts.find? (fun p => p != username) with
        | some partner =>
          if partner != "" && !(partners.contains partner) then partners ++ [partner]
          else partners
        | none => partners
      else partners
    else partners) []

/-- part_000 `getBastionChannelKey` (lines 230-232). -/
def getBastionChannelKey (bastionId channelName : String) : String :=
  "fortized_bastion_" ++ bastionId ++ "_ch_" ++ channelName

/-- The reaction toggle on a message's `reactions` object (part_000 lines
261-269): create the emoji's array if missing, `push` the username if
absent, otherwise `splice` it out and `delete` the emoji entry when its
array becomes empty.  The association list keeps JS object key order:
the first (unique) matching key is toggled in place, a missing emoji is
appended at the end. -/
def reactToggle (emoji username : String) : List (String × List String) →
    List (String × List String)
  | [] => [(emoji, [username])]
  | (e, arr) :: rest =>
    if e == emoji then
      if arr.contains username then
        let arr' := arr.erase username
        if arr'.isEmpty then rest else (e, arr') :: rest
      else (e, arr ++ [username]) :: rest
    else (e, arr) :: reactToggle emoji username rest

/-- part_000 `addReaction` (lines 256-272): returns with no store write at
all when the message id is not found; otherwise toggles the reaction set
and saves the channel. -/
def addReaction (bastionId channelName msgId emoji username : String)
    (s : State) : State :=
  let key := getBastionChannelKey bastionId channelName
  let msgs := (getItem s.channels key).getD []
  match msgs.find? (fun m => m.id == msgId) with
  | none => s
  | some _ =>
    let msgs' := updFirst (fun m => m.id == msgId)
      (fun m => { m with reactions := reactToggle emoji username m.reactions }) msgs
    { s with channels := setItem s.channels key msgs' }

/-- The messages stored under a bastion channel key. -/
def getChannelMsgs (s : State) (bastionId channelName : String) : List BMsg :=
  (getItem s.channels (getBastionChannelKey bastionId channelName)).getD []

end LS

namespace FB

/-- A full user record as built by `register` (social.js lines 123-137,
identically FortizedSocial-firebase.js lines 95-109).  `email`, `pfp`,
`banner`, `radianceUntil`, `lastDaily` and `createdAt` are carried along
untouched by the modelled operations. -/
structure User where
  username : String
  password : String
  email : String
  displayName : String
  pfp : Option String
  banner : Option String
  onyx : Nat
  status : String
  friends : List String
  friendRequestsSent : List String
  friendRequestsReceived : List String
  bastions : List String
  notifications : List Notif
  radianceUntil : Option String
  lastDaily : Option String
  createdAt : String
deriving DecidableEq, Repr

/-- The Firebase Realtime Database paths the modelled operations touch:
`users/<u>`, `notifications/<u>/<id>`, `dms/<pairKey>/<msgId>`,
`dmIndex/<u>`, and per message the `bastionMsgs/<id>/<ch>/<msgId>/reactions`
subtree (the only part of a channel message `addReaction` reads or
writes).  Firebase maps are modelled as association lists; child `set`
replaces an existing binding in place or appends a new one. -/
structure State where
  users : List (String × User)
  notifs : List (String × List (String × Notif))
  dms : List (String × List (String × Msg))
  dmIndex : List (String × List String)
  bastionReacts : List (String × List (String × List (String × List String)))
deriving DecidableEq, Repr

/-- The empty database. -/
def emptyState : State :=
  { users := [], notifs := [], dms := [], dmIndex := [], bastionReacts := [] }

/-- social.js `getUserByName` (lines 102-105): `null` for a falsy username,
otherwise a get at `users/<username>`. -/
def getUserByName (s : State) (username : String) : Option User :=
  if username == "" then none else getItem s.users username

/-- social.js `addNotification` (lines 180-185): stamp the notification
with a fresh id and time, `read = false`, and `set` it at
`notifications/<toUsername>/<id>` — with no existence check on the target
and no cap on the log. -/
def addNotification (id time : String) (toUsername : String)
    (type from_ : String) (data : NData) (s : State) : State :=
  let notif : Notif := { type := type, from_ := from_, data := data,
                         id := id, time := time, read := false }
  let log := setItem ((getItem s.notifs toUsername).getD []) id notif
  { s with notifs := setItem s.notifs toUsername log }

/-- social.js `acceptFriendRequest` (lines 237-262): read both records,
add each user to the other's `friends` (idempotently), clear all four
pending-request lists of the pair (defensive symmetric cleanup), then
notify the original sender.  Both updates are computed from the initial
reads, as in the source. -/
def acceptFriendRequest (id time : String) (myUsername fromUsername : String)
    (s : State) : State × Result :=
  match getUserByName s myUsername, getUserByName s fromUsername with
  | some mu, some fu =>
    let myFriends := if mu.friends.contains fromUsername then mu.friends
                     else mu.friends ++ [fromUsername]
    let hisFriends := if fu.friends.contains myUsername then fu.friends
                      else fu.friends ++ [myUsername]
    let s1 : State := { s with users := updItem s.users myUsername (fun u =>
      { u with friends := myFriends,
               friendRequestsReceived := mu.friendRequestsReceived.filter (fun x => x != fromUsername),
               friendRequestsSent := mu.friendRequestsSent.filter (fun x => x != fromUsername) }) }
    let s2 : State := { s1 with users := updItem s1.users fromUsername (fun u =>
      { u with friends := hisFriends,
               friendRequestsSent := fu.friendRequestsSent.filter (fun x => x != myUsername),
               friendRequestsReceived := fu.friendRequestsReceived.filter (fun x => x != myUsername) }) }
    (addNotification id time fromUsername "friend_accept" myUsername NData.noneData s2,
     { ok := true, msg := "You are now friends with " ++ fromUsername ++ "!" })
  | _, _ => (s, { ok := false, msg := "User not found." })

/-- social.js `sendFriendRequest` (lines 201-235): rejects self / unknown
users / already-friends / duplicate outgoing; auto-accepts when the
receiver's `friendRequestsSent` already names the sender; otherwise
records the pending request on both sides (skipping an already-present
mirror entry) and notifies the receiver. -/
def sendFriendRequest (id time : String) (fromUsername toUsername : String)
    (s : State) : State × Result :=
  if fromUsername == toUsername then
    (s, { ok := false, msg := "Can't add yourself." })
  else
    match getUserByName s fromUsername, getUserByName s toUsername with
    | none, _ => (s, { ok := false, msg := "Your account not found." })
    | some _, none => (s, { ok := false, msg := "User not found." })
    | some fu, some tu =>
      if fu.friends.contains toUsername then
        (s, { ok := false, msg := "Already friends." })
      else if fu.friendRequestsSent.contains toUsername then
        (s, { ok := false, msg := "Request already sent." })
      else if tu.friendRequestsSent.contains fromUsername then
        acceptFriendRequest id time fromUsername toUsername s
      else
        let s1 : State := { s with users := updItem s.users fromUsername (fun u =>
          { u with friendRequestsSent := fu.friendRequestsSent ++ [toUsername] }) }
        let s2 : State :=
          if tu.friendRequestsReceived.contains fromUsername then s1
          else { s1 with users := updItem s1.users toUsername (fun u =>
            { u with friendRequestsReceived := tu.friendRequestsReceived ++ [fromUsername] }) }
        (addNotification id time toUsername "friend_request" fromUsername NData.noneData s2,
         { ok := true, msg := "Friend request sent to " ++ toUsername ++ "!" })

/-- The username normalization in `register` (social.js line 114):
`username.trim().toLowerCase().replace(/[^a-z0-9_]/g, '')`, written out on
the character list (`Char.toLower` matches JS lower-casing on the ASCII
range relevant to the kept alphabet). -/
def isJsSpace (c : Char) : Bool :=
  c == ' ' || c == '\t' || c == '\n' || c == '\r' || c == '\x0b' || c == '\x0c'

/-- Trim ASCII whitespace from both ends, as `String.prototype.trim` does
for the ASCII range. -/
def trimChars (l : List Char) : List Char :=
  ((l.dropWhile isJsSpace).reverse.dropWhile isJsSpace).reverse

/-- Normalized username: trimmed, lower-cased, every character outside
`[a-z0-9_]` removed. -/
def normalizeUsername (username : String) : String :=
  (((trimChars username.data).map Char.toLower).filter (fun c =>
    decide (('a' ≤ c ∧ c ≤ 'z') ∨ ('0' ≤ c ∧ c ≤ '9') ∨ c = '_'))).asString

/-- Outcome of `register`: `{ ok, msg }` plus the created user on success. -/
structure RegResult where
  ok : Bool
  msg : String
  user : Option User
deriving DecidableEq, Repr

/-- social.js `register` (lines 113-140; FortizedSocial-firebase.js lines
85-113 adds only a localStorage session write): normalize the username,
reject a normalized name shorter than 3 characters, a password shorter
than 6 characters, or an existing record; otherwise store a fresh user
with 25 onyx, status `online` and empty lists.  (`!username` and
`!password` are subsumed by the length checks, since an empty string has
length 0.)  The success result carries no `msg` field, modelled as "". -/
def register (createdAt : String) (username password email : String)
    (s : State) : State × RegResult :=
  let uname := normalizeUsername username
  if uname.length < 3 then
    (s, { ok := false, msg := "Username must be 3+ characters (a-z, 0-9, _).", user := none })
  else if password.length < 6 then
    (s, { ok := false, msg := "Password must be 6+ characters.", user := none })
  else
    match getUserByName s uname with
    | some _ => (s, { ok := false, msg := "Username already taken.", user := none })
    | none =>
      let user : User :=
        { username := uname, password := password, email := email,
          displayName := uname, pfp := none, banner := none, onyx := 25,
          status := "online", friends := [], friendRequestsSent := [],
          friendRequestsReceived := [], bastions := [], notifications := [],
          radianceUntil := none, lastDaily := none, createdAt := createdAt }
      ({ s with users := setItem s.users uname user }, { ok := true, msg := "", user := some user })

/-- social.js path helper `P.dm` (line 51):
`dms/${[a, b].sort().join('__')}`. -/
def Pdm (a b : String) : String :=
  let p := sortPair a b
  "dms/" ++ p.1 ++ "__" ++ p.2

/-- social.js path helper `P.bastionMsgs` (line 53). -/
def Pbm (bastionId channelId : String) : String :=
  "bastionMsgs/" ++ bastionId ++ "/" ++ channelId

/-- social.js `sendDMMessage` (lines 304-340): store the message under the
canonical thread key, read both partner indexes, rebuild each as
dedup + move-to-front + cap at 30, and push a `dm` notification to the
receiver with a 60-character preview (`text.slice(0, 60)`).  Both index
reads happen before either write (`Promise.all`), as in the source. -/
def sendDMMessage (msgId timeStr timestamp notifId notifTime : String)
    (fromUsername toUsername text : String) (s : State) : State × Msg :=
  let msg : Msg := { id := msgId, from_ := fromUsername, text := text,
                     time := timeStr, timestamp := timestamp }
  let key := Pdm fromUsername toUsername
  let thread := setItem ((getItem s.dms key).getD []) msgId msg
  let s1 : State := { s with dms := setItem s.dms key thread }
  let myIdx := (getItem s.dmIndex fromUsername).getD []
  let theirIdx := (getItem s.dmIndex toUsername).getD []
  let myIdx' := (toUsername :: myIdx.filter (fun u => u != toUsername)).take 30
  let theirIdx' := (fromUsername :: theirIdx.filter (fun u => u != fromUsername)).take 30
  let s2 : State := { s1 with dmIndex := setItem s1.dmIndex fromUsername myIdx' }
  let s3 : State := { s2 with dmIndex := setItem s2.dmIndex toUsername theirIdx' }
  (addNotification notifId notifTime toUsername "dm" fromUsername
    (NData.dPreview ((text.data.take 60).asString)) s3, msg)

/-- social.js `addReaction` (lines 371-380): a transaction at
`bastionMsgs/<id>/<ch>/<msgId>/reactions/<emoji>` that toggles the
username in the current array and returns `null` (removing the node) when
the array empties.  The transaction runs whether or not the message
exists: a missing path reads as `null`, so toggling under an absent
message id creates the reaction node there.  Firebase drops empty
parents, modelled by pruning emptied entries. -/
def addReaction (bastionId channelId msgId emoji username : String)
    (s : State) : State :=
  let path := Pbm bastionId channelId
  let chan := (getItem s.bastionReacts path).getD []
  let cur := (getItem chan msgId).getD []
  let arr := (getItem cur emoji).getD []
  let arr' := if arr.contains username then arr.erase username else arr ++ [username]
  let cur' := if arr'.isEmpty then cur.eraseP (fun kv => kv.1 == emoji)
              else setItem cur emoji arr'
  let chan' := if cur'.isEmpty then chan.eraseP (fun kv => kv.1 == msgId)
               else setItem chan msgId cur'
  let reacts' := if chan'.isEmpty then s.bastionReacts.eraseP (fun kv => kv.1 == path)
                 else setItem s.bastionReacts path chan'
  { s with bastionReacts := reacts' }

end FB

/-- The DM thread key construction as the spec words it (§6): "lower-case
the two usernames, sort lexicographically, join with a fixed separator".
Written only for comparison with `LS.getDMKey`, which does not lower-case. -/
def getDMKeyPerSpec (userA userB : String) : String :=
  let p := sortPair (userA.data.map Char.toLower).asString (userB.data.map Char.toLower).asString
  "fortized_dm_" ++ p.1 ++ "_" ++ p.2

/-! ### Concrete stores used by the claim-level runs -/

/-- A fresh two-user localStorage store. -/
def lsAliceBob : LS.State :=
  { users := [LS.mkUser "alice", LS.mkUser "bob"], dms := [], channels := [] }

/-- A three-user localStorage store. -/
def lsAliceBobCarl : LS.State :=
  { users := [LS.mkUser "alice", LS.mkUser "bob", LS.mkUser "carl"], dms := [], channels := [] }

/-- A fresh Firebase user record as `register` would create it. -/
def fbUser (name : String) : FB.User :=
  { username := name, password := "secret1", email := "", displayName := name,
    pfp := none, banner := none, onyx := 25, status := "online", friends := [],
    friendRequestsSent := [], friendRequestsReceived := [], bastions := [],
    notifications := [], radianceUntil := none, lastDaily := none, createdAt := "t0" }

/-- A two-user Firebase store. -/
def fbAliceBob : FB.State :=
  { users := [("alice", fbUser "alice"), ("bob", fbUser "bob")],
    notifs := [], dms := [], dmIndex := [], bastionReacts := [] }

/-- Concrete run refuting C1 on the localStorage engine: bob requests
alice; bob then calls accept(bob, alice) even though alice never sent a
request (the engine never checks a pending entry exists), making the pair
friends while bob's `friendRequestsSent` and alice's
`friendRequestsReceived` still hold the stale pending entry. -/
def c1Stale : LS.State :=
  (LS.acceptFriendRequest "i2" "t2" "bob" "alice"
    (LS.sendFriendRequest "i1" "t1" "bob" "alice" lsAliceBob).1).1

/-- The claim's sequence `sendRequest(alice,bob)` then
`acceptRequest(bob,alice)` run from `c1Stale`. -/
def c1Final : LS.State :=
  (LS.acceptFriendRequest "i4" "t4" "bob" "alice"
    (LS.sendFriendRequest "i3" "t3" "alice" "bob" c1Stale).1).1

/-- Sixty successive localStorage pushes with ids n0..n59 to alice
(newest id n59 pushed last). -/
def lsPushUpTo : Nat → LS.State → LS.State
  | 0, s => s
  | n + 1, s => (LS.pushNotification ("n" ++ toString n) "t" "alice" "dm" "bob"
      NData.noneData (lsPushUpTo n s)).1

/-- The same sixty pushes against the Firebase `addNotification`. -/
def fbPushUpTo : Nat → FB.State → FB.State
  | 0, s => s
  | n + 1, s => FB.addNotification ("n" ++ toString n) "t" "alice" "dm" "bob"
      NData.noneData (fbPushUpTo n s)

/-- `sendRequest(alice,bob)` on the fresh two-user store. -/
def c5AfterSend : LS.State := (LS.sendFriendRequest "i1" "t1" "alice" "bob" lsAliceBob).1

/-- ... followed by `acceptRequest(bob,alice)`. -/
def c5Final : LS.State := (LS.acceptFriendRequest "i2" "t2" "bob" "alice" c5AfterSend).1

/-- A concrete bastion channel message with one existing reaction. -/
def c6Msg : BMsg :=
  { id := "m1", from_ := "alice", text := "hello", time := "12:00",
    timestamp := "t0", reactions := [("fire", ["bob"])] }

/-- A store holding that single message in bastion b1, channel general. -/
def c6State : LS.State :=
  { users := [], dms := [],
    channels := [(LS.getBastionChannelKey "b1" "general", [c6Msg])] }

/-- alice DMs bob, then carl, in the localStorage engine. -/
def c9s1 : LS.State :=
  (LS.sendDMMessage "m1" "12:00" "t1" "nid1" "nt1" "alice" "bob" "hi" lsAliceBobCarl).1

/-- ... the second send goes to carl. -/
def c9s2 : LS.State :=
  (LS.sendDMMessage "m2" "12:01" "t2" "nid2" "nt2" "alice" "carl" "yo" c9s1).1

/-- alice DMs thirty-one distinct partners u0..u30. -/
def c9Many : Nat → LS.State
  | 0 => lsAliceBobCarl
  | n + 1 => (LS.sendDMMessage ("m" ++ toString n) "12:00" "t" ("nid" ++ toString n)
      "nt" "alice" ("u" ++ toString n) "hi" (c9Many n)).1

/-! ### Helper lemmas about the store primitives -/

theorem find?_updFirst_pres {α : Type} (p : α → Bool) (f : α → α) (l : List α)
    (hf : ∀ a, p a = true → p (f a) = true) :
    (updFirst p f l).find? p = (l.find? p).map f := by
  induction l with
  | nil => rfl
  | cons a as ih =>
    by_cases h : p a = true
    · simp [updFirst, h, List.find?, hf a h]
    · simp only [Bool.not_eq_true] at h
      simp [updFirst, h, List.find?, ih]

theorem find?_updFirst_other {α : Type} (p q : α → Bool) (f : α → α) (l : List α)
    (hq : ∀ a, p a = true → q a = false ∧ q (f a) = false) :
    (updFirst p f l).find? q = l.find? q := by
  induction l with
  | nil => rfl
  | cons a as ih =>
    by_cases h : p a = true
    · obtain ⟨h1, h2⟩ := hq a h
      simp [updFirst, h, List.find?, h1, h2]
    · simp only [Bool.not_eq_true] at h
      by_cases hqa : q a = true
      · simp [updFirst, h, List.find?, hqa]
      · simp only [Bool.not_eq_true] at hqa
        simp [updFirst, h, List.find?, hqa, ih]

theorem mem_updFirst {α : Type} (p : α → Bool) (f : α → α) (l : List α) :
    ∀ x ∈ updFirst p f l, x ∈ l ∨ ∃ y, y ∈ l ∧ x = f y := by
  induction l with
  | nil => intro x hx; simp [updFirst] at hx
  | cons a as ih =>
    intro x hx
    by_cases h : p a = true
    · rw [show updFirst p f (a :: as) = f a :: as by simp [updFirst, h],
        List.mem_cons] at hx
      rcases hx with hx | hx
      · exact Or.inr ⟨a, List.mem_cons_self a as, hx⟩
      · exact Or.inl (List.mem_cons_of_mem a hx)
    · simp only [Bool.not_eq_true] at h
      rw [show updFirst p f (a :: as) = a :: updFirst p f as by simp [updFirst, h],
        List.mem_cons] at hx
      rcases hx with hx | hx
      · exact Or.inl (by simp [hx])
      · rcases ih x hx with h' | ⟨y, hy, hxy⟩
        · exact Or.inl (List.mem_cons_of_mem a h')
        · exact Or.inr ⟨y, List.mem_cons_of_mem a hy, hxy⟩

theorem find?_isSome_eq_any {α : Type} (p : α → Bool) (l : List α) :
    (l.find? p).isSome = l.any p := by
  induction l with
  | nil => rfl
  | cons a as ih =>
    by_cases h : p a = true
    · simp [List.find?, h]
    · simp only [Bool.not_eq_true] at h
      simp [List.find?, h, ih]

theorem getItem_updItem_self {α : Type} (l : List (String × α)) (k : String) (f : α → α) :
    getItem (updItem l k f) k = (getItem l k).map f := by
  unfold getItem updItem
  rw [find?_updFirst_pres (fun kv => kv.1 == k) (fun kv => (kv.1, f kv.2)) l
    (fun a ha => ha)]
  cases l.find? (fun kv => kv.1 == k) <;> rfl

theorem getItem_updItem_ne {α : Type} (l : List (String × α)) (k k' : String) (f : α → α)
    (h : k' ≠ k) :
    getItem (updItem l k f) k' = getItem l k' := by
  unfold getItem updItem
  rw [find?_updFirst_other (fun kv => kv.1 == k) (fun kv => kv.1 == k')
    (fun kv => (kv.1, f kv.2)) l]
  intro a ha
  have ha1 : a.1 = k := by simpa using ha
  refine ⟨?_, ?_⟩
  · rw [ha1]
    exact beq_eq_false_iff_ne.mpr (fun hh => h hh.symm)
  · show (a.1 == k') = false
    rw [ha1]
    exact beq_eq_false_iff_ne.mpr (fun hh => h hh.symm)

theorem getItem_updItem_isSome {α : Type} (l : List (String × α)) (k k' : String) (f : α → α) :
    (getItem (updItem l k f) k').isSome = (getItem l k').isSome := by
  by_cases h : k' = k
  · subst h
    rw [getItem_updItem_self]
    cases getItem l k' <;> rfl
  · rw [getItem_updItem_ne l k k' f h]

theorem find?_append_one {α : Type} (l : List α) (x : α) (q : α → Bool) :
    (l ++ [x]).find? q = ((l.find? q).or (if q x then some x else none)) := by
  induction l with
  | nil => by_cases h : q x = true <;> simp [List.find?, h]
  | cons a as ih =>
    by_cases h : q a = true
    · simp [List.find?, h]
    · simp only [Bool.not_eq_true] at h
      simp [List.find?, h, ih]

theorem getItem_setItem_self {α : Type} (l : List (String × α)) (k : String) (v : α) :
    getItem (setItem l k v) k = some v := by
  unfold setItem
  by_cases h : l.any (fun kv => kv.1 == k) = true
  · simp only [h, if_pos]
    have hpres := find?_updFirst_pres (fun kv => (kv.1 == k)) (fun kv => (kv.1, v)) l
      (fun a ha => ha)
    unfold getItem
    rw [hpres]
    have hs : (l.find? (fun kv => kv.1 == k)).isSome = true := by
      rw [find?_isSome_eq_any]; exact h
    cases hfind : l.find? (fun kv => kv.1 == k) with
    | none => rw [hfind] at hs; simp at hs
    | some a => simp
  · simp only [h, Bool.false_eq_true, if_false]
    unfold getItem
    rw [find?_append_one]
    have hnone : l.find? (fun kv => kv.1 == k) = none := by
      cases hfind : l.find? (fun kv => kv.1 == k) with
      | none => rfl
      | some a =>
        exfalso
        have : (l.find? (fun kv => kv.1 == k)).isSome = true := by rw [hfind]; rfl
        rw [find?_isSome_eq_any] at this
        exact h this
    simp [hnone]

theorem getItem_setItem_ne {α : Type} (l : List (String × α)) (k k' : String) (v : α)
    (h : k' ≠ k) :
    getItem (setItem l k v) k' = getItem l k' := by
  unfold setItem
  by_cases hany : l.any (fun kv => kv.1 == k) = true
  · simp only [hany, if_pos]
    unfold getItem
    rw [find?_updFirst_other (fun kv => kv.1 == k) (fun kv => kv.1 == k')
      (fun kv => (kv.1, v)) l]
    intro a ha
    have ha1 : a.1 = k := by simpa using ha
    refine ⟨?_, ?_⟩
    · rw [ha1]
      exact beq_eq_false_iff_ne.mpr (fun hh => h hh.symm)
    · show (a.1 == k') = false
      rw [ha1]
      exact beq_eq_false_iff_ne.mpr (fun hh => h hh.symm)
  · simp only [hany, Bool.false_eq_true, if_false]
    unfold getItem
    rw [find?_append_one]
    have hkk : ((k, v).1 == k') = false :=
      beq_eq_false_iff_ne.mpr (fun hh => h hh.symm)
    simp only [hkk, Bool.false_eq_true, if_false]
    cases l.find? (fun kv => kv.1 == k') <;> rfl

theorem getItem_setItem_isSome_mono {α : Type} (l : List (String × α)) (k k' : String)
    (v : α) (h : (getItem l k').isSome = true) :
    (getItem (setItem l k v) k').isSome = true := by
  by_cases hk : k' = k
  · subst hk; rw [getItem_setItem_self]; rfl
  · rw [getItem_setItem_ne l k k' v hk]; exact h

/-! ### Helper lemmas about the localStorage user array -/

theorem findUser_updUser_self (l : List LS.User) (n : String) (f : LS.User → LS.User)
    (hf : ∀ u, (f u).username = u.username) :
    LS.findUser (LS.updUser l n f) n = (LS.findUser l n).map f := by
  unfold LS.findUser LS.updUser
  apply find?_updFirst_pres
  intro a ha
  rw [hf a]
  exact ha

theorem findUser_updUser_ne (l : List LS.User) (n n' : String) (f : LS.User → LS.User)
    (h : n' ≠ n) (hf : ∀ u, (f u).username = u.username) :
    LS.findUser (LS.updUser l n f) n' = LS.findUser l n' := by
  unfold LS.findUser LS.updUser
  apply find?_updFirst_other
  intro a ha
  have ha1 : a.username = n := by simpa using ha
  refine ⟨?_, ?_⟩
  · rw [ha1]
    exact beq_eq_false_iff_ne.mpr (fun hh => h hh.symm)
  · rw [hf a, ha1]
    exact beq_eq_false_iff_ne.mpr (fun hh => h hh.symm)

theorem findUser_isSome_eq_any (l : List LS.User) (n : String) :
    (LS.findUser l n).isSome = l.any (fun u => u.username == n) :=
  find?_isSome_eq_any _ _

theorem findUser_updUser_isSome (l : List LS.User) (n n' : String) (f : LS.User → LS.User)
    (hf : ∀ u, (f u).username = u.username) :
    (LS.findUser (LS.updUser l n f) n').isSome = (LS.findUser l n').isSome := by
  by_cases h : n' = n
  · subst h
    rw [findUser_updUser_self l n' f hf]
    cases LS.findUser l n' <;> rfl
  · rw [findUser_updUser_ne l n n' f h hf]

theorem any_updUser (l : List LS.User) (n n' : String) (f : LS.User → LS.User)
    (hf : ∀ u, (f u).username = u.username) :
    (LS.updUser l n f).any (fun u => u.username == n') = l.any (fun u => u.username == n') := by
  rw [← findUser_isSome_eq_any, ← findUser_isSome_eq_any, findUser_updUser_isSome l n n' f hf]

/-- The six named record updates all preserve `username`; packaged as
rewrite rules for `findUser` / `any` over `updUser`. -/
theorem findUser_upd_self_push (l : List LS.User) (n : String) (nf : Notif) :
    LS.findUser (LS.updUser l n (LS.pushNotifUpd nf)) n
      = (LS.findUser l n).map (LS.pushNotifUpd nf) :=
  findUser_updUser_self l n (LS.pushNotifUpd nf) (fun _ => rfl)

theorem findUser_upd_ne_push (l : List LS.User) (n n' : String) (nf : Notif) (h : n' ≠ n) :
    LS.findUser (LS.updUser l n (LS.pushNotifUpd nf)) n' = LS.findUser l n' :=
  findUser_updUser_ne l n n' (LS.pushNotifUpd nf) h (fun _ => rfl)

theorem findUser_upd_self_addFriend (l : List LS.User) (n o : String) :
    LS.findUser (LS.updUser l n (LS.addFriendUpd o)) n
      = (LS.findUser l n).map (LS.addFriendUpd o) :=
  findUser_updUser_self l n (LS.addFriendUpd o) (fun _ => rfl)

theorem findUser_upd_ne_addFriend (l : List LS.User) (n n' o : String) (h : n' ≠ n) :
    LS.findUser (LS.updUser l n (LS.addFriendUpd o)) n' = LS.findUser l n' :=
  findUser_updUser_ne l n n' (LS.addFriendUpd o) h (fun _ => rfl)

theorem findUser_upd_self_filterReceived (l : List LS.User) (n o : String) :
    LS.findUser (LS.updUser l n (LS.filterReceivedUpd o)) n
      = (LS.findUser l n).map (LS.filterReceivedUpd o) :=
  findUser_updUser_self l n (LS.filterReceivedUpd o) (fun _ => rfl)

theorem findUser_upd_ne_filterReceived (l : List LS.User) (n n' o : String) (h : n' ≠ n) :
    LS.findUser (LS.updUser l n (LS.filterReceivedUpd o)) n' = LS.findUser l n' :=
  findUser_updUser_ne l n n' (LS.filterReceivedUpd o) h (fun _ => rfl)

theorem findUser_upd_self_filterSent (l : List LS.User) (n o : String) :
    LS.findUser (LS.updUser l n (LS.filterSentUpd o)) n
      = (LS.findUser l n).map (LS.filterSentUpd o) :=
  findUser_updUser_self l n (LS.filterSentUpd o) (fun _ => rfl)

theorem findUser_upd_ne_filterSent (l : List LS.User) (n n' o : String) (h : n' ≠ n) :
    LS.findUser (LS.updUser l n (LS.filterSentUpd o)) n' = LS.findUser l n' :=
  findUser_updUser_ne l n n' (LS.filterSentUpd o) h (fun _ => rfl)

theorem findUser_upd_self_appendSent (l : List LS.User) (n o : String) :
    LS.findUser (LS.updUser l n (LS.appendSentUpd o)) n
      = (LS.findUser l n).map (LS.appendSentUpd o) :=
  findUser_updUser_self l n (LS.appendSentUpd o) (fun _ => rfl)

theorem findUser_upd_ne_appendSent (l : List LS.User) (n n' o : String) (h : n' ≠ n) :
    LS.findUser (LS.updUser l n (LS.appendSentUpd o)) n' = LS.findUser l n' :=
  findUser_updUser_ne l n n' (LS.appendSentUpd o) h (fun _ => rfl)

theorem findUser_upd_self_appendReceived (l : List LS.User) (n o : String) :
    LS.findUser (LS.updUser l n (LS.appendReceivedUpd o)) n
      = (LS.findUser l n).map (LS.appendReceivedUpd o) :=
  findUser_updUser_self l n (LS.appendReceivedUpd o) (fun _ => rfl)

theorem findUser_upd_ne_appendReceived (l : List LS.User) (n n' o : String) (h : n' ≠ n) :
    LS.findUser (LS.updUser l n (LS.appendReceivedUpd o)) n' = LS.findUser l n' :=
  findUser_updUser_ne l n n' (LS.appendReceivedUpd o) h (fun _ => rfl)

theorem any_upd_push (l : List LS.User) (n n' : String) (nf : Notif) :
    (LS.updUser l n (LS.pushNotifUpd nf)).any (fun u => u.username == n')
      = l.any (fun u => u.username == n') :=
  any_updUser l n n' (LS.pushNotifUpd nf) (fun _ => rfl)

theorem any_upd_addFriend (l : List LS.User) (n n' o : String) :
    (LS.updUser l n (LS.addFriendUpd o)).any (fun u => u.username == n')
      = l.any (fun u => u.username == n') :=
  any_updUser l n n' (LS.addFriendUpd o) (fun _ => rfl)

theorem any_upd_filterReceived (l : List LS.User) (n n' o : String) :
    (LS.updUser l n (LS.filterReceivedUpd o)).any (fun u => u.username == n')
      = l.any (fun u => u.username == n') :=
  any_updUser l n n' (LS.filterReceivedUpd o) (fun _ => rfl)

theorem any_upd_filterSent (l : List LS.User) (n n' o : String) :
    (LS.updUser l n (LS.filterSentUpd o)).any (fun u => u.username == n')
      = l.any (fun u => u.username == n') :=
  any_updUser l n n' (LS.filterSentUpd o) (fun _ => rfl)

theorem any_upd_appendSent (l : List LS.User) (n n' o : String) :
    (LS.updUser l n (LS.appendSentUpd o)).any (fun u => u.username == n')
      = l.any (fun u => u.username == n') :=
  any_updUser l n n' (LS.appendSentUpd o) (fun _ => rfl)

theorem any_upd_appendReceived (l : List LS.User) (n n' o : String) :
    (LS.updUser l n (LS.appendReceivedUpd o)).any (fun u => u.username == n')
      = l.any (fun u => u.username == n') :=
  any_updUser l n n' (LS.appendReceivedUpd o) (fun _ => rfl)

/-- Effect of `LS.pushNotification` when the target exists: the stamped
notification is prepended to the target's log, which is truncated to 50. -/
theorem pushNotification_spec (id time target ty fr : String) (d : NData) (s : LS.State)
    (hex : s.users.any (fun u => u.username == target) = true) :
    LS.pushNotification id time target ty fr d s =
      ({ s with users := LS.updUser s.users target (LS.pushNotifUpd (LS.mkNotif id time ty fr d)) }, true) := by
  unfold LS.pushNotification
  rw [hex, if_pos rfl]

/-- Effect of `LS.acceptFriendRequest` on both records when both users
exist and differ: mutual friendship (idempotent insert), `fr` filtered out
of my `friendRequestsReceived`, me filtered out of `fr`'s
`friendRequestsSent`, and an unread `friend_accept` notification prepended
to `fr`'s log.  No other field of either record changes — in particular my
`friendRequestsSent` and `fr`'s `friendRequestsReceived` are untouched. -/
theorem LS_accept_spec (id time me fr : String) (s : LS.State) (mu fu : LS.User)
    (hme : LS.findUser s.users me = some mu) (hfr : LS.findUser s.users fr = some fu)
    (hne : me ≠ fr) :
    (LS.acceptFriendRequest id time me fr s).2
        = { ok := true, msg := "You are now friends with " ++ fr ++ "!" } ∧
    LS.findUser (LS.acceptFriendRequest id time me fr s).1.users me
        = some { mu with
            friends := if mu.friends.contains fr then mu.friends else mu.friends ++ [fr],
            friendRequestsReceived := mu.friendRequestsReceived.filter (fun x => x != fr) } ∧
    LS.findUser (LS.acceptFriendRequest id time me fr s).1.users fr
        = some { fu with
            friends := if fu.friends.contains me then fu.friends else fu.friends ++ [me],
            friendRequestsSent := fu.friendRequestsSent.filter (fun x => x != me),
            notifications := (LS.mkNotif id time "friend_accept" me (NData.dFrom me)
                :: fu.notifications).take 50 } := by
  have hne' : fr ≠ me := hne.symm
  have hany_me : s.users.any (fun u => u.username == me) = true := by
    rw [← findUser_isSome_eq_any, hme]; rfl
  have hany_fr : s.users.any (fun u => u.username == fr) = true := by
    rw [← findUser_isSome_eq_any, hfr]; rfl
  unfold LS.acceptFriendRequest
  rw [hany_me, hany_fr, show (true && true) = true from rfl, if_pos rfl]
  dsimp only
  rw [pushNotification_spec]
  · refine ⟨rfl, ?_, ?_⟩
    · dsimp only
      simp only [findUser_upd_self_push, findUser_upd_ne_push, findUser_upd_self_addFriend,
        findUser_upd_ne_addFriend, findUser_upd_self_filterReceived,
        findUser_upd_ne_filterReceived, findUser_upd_self_filterSent,
        findUser_upd_ne_filterSent, hne, hne', ne_eq, not_false_iff, hme, Option.map_some]
      rfl
    · dsimp only
      simp only [findUser_upd_self_push, findUser_upd_ne_push, findUser_upd_self_addFriend,
        findUser_upd_ne_addFriend, findUser_upd_self_filterReceived,
        findUser_upd_ne_filterReceived, findUser_upd_self_filterSent,
        findUser_upd_ne_filterSent, hne, hne', ne_eq, not_false_iff, hfr, Option.map_some]
      rfl
  · simp only [any_upd_addFriend, any_upd_filterReceived, any_upd_filterSent]
    exact hany_fr

/-- Effect of part_000 `sendFriendRequest` on the normal (pending) path:
when both users exist, differ, and the sender has no friendship, no
outgoing and no incoming pending entry for the receiver, the call appends
the pending entries on both sides and notifies the receiver. -/
theorem LS_send_spec (id time A B : String) (s : LS.State) (ua ub : LS.User)
    (hA : LS.findUser s.users A = some ua) (hB : LS.findUser s.users B = some ub)
    (hne : A ≠ B)
    (hnf : ua.friends.contains B = false)
    (hns : ua.friendRequestsSent.contains B = false)
    (hnr : ua.friendRequestsReceived.contains B = false) :
    (LS.sendFriendRequest id time A B s).2
        = { ok := true, msg := "Friend request sent to " ++ B ++ "!" } ∧
    LS.findUser (LS.sendFriendRequest id time A B s).1.users A
        = some (LS.appendSentUpd B ua) ∧
    LS.findUser (LS.sendFriendRequest id time A B s).1.users B
        = some (LS.pushNotifUpd (LS.mkNotif id time "friend_request" A (NData.dFrom A))
            (LS.appendReceivedUpd A ub)) := by
  have hne' : B ≠ A := hne.symm
  have hAB : (A == B) = false := beq_eq_false_iff_ne.mpr hne
  have hany_B : s.users.any (fun u => u.username == B) = true := by
    rw [← findUser_isSome_eq_any, hB]; rfl
  unfold LS.sendFriendRequest LS.getUserByName
  rw [hAB, hA, hB]
  dsimp only
  rw [hnf, hns, hnr]
  simp only [Bool.false_eq_true, if_false]
  rw [pushNotification_spec]
  · refine ⟨by trivial, ?_, ?_⟩
    · dsimp only
      simp only [findUser_upd_self_push, findUser_upd_ne_push, findUser_upd_self_appendSent,
        findUser_upd_ne_appendSent, findUser_upd_self_appendReceived,
        findUser_upd_ne_appendReceived, hne, hne', ne_eq, not_false_iff, hA]
      rfl
    · dsimp only
      simp only [findUser_upd_self_push, findUser_upd_ne_push, findUser_upd_self_appendSent,
        findUser_upd_ne_appendSent, findUser_upd_self_appendReceived,
        findUser_upd_ne_appendReceived, hne, hne', ne_eq, not_false_iff, hB]
      rfl
  · simp only [any_upd_appendSent, any_upd_appendReceived]
    exact hany_B

theorem contains_eq_false_of_not_mem {a : String} {l : List String} (h : a ∉ l) :
    l.contains a = false := by
  cases hc : l.contains a
  · rfl
  · exact absurd (by simpa using hc) h

theorem contains_eq_true_of_mem {a : String} {l : List String} (h : a ∈ l) :
    l.contains a = true := by
  simpa using h

theorem not_mem_filter_bne (a : String) (l : List String) :
    a ∉ l.filter (fun x => x != a) := by
  intro h
  have := List.of_mem_filter h
  simp at this

/-- C2: mutual-request convergence.  In the localStorage engine, if
`sendRequest(A,B)` succeeds by creating a pending request (both users
exist, are distinct, not friends, and no pending entry exists between
them) and `B` then calls `sendRequest(B,A)` before accepting, the second
call is redirected to the accept path: it returns the friend-accept
outcome, both friends lists contain the other afterwards, no
pending-request entry for the pair remains on either record, and no new
pending request was created. -/
theorem mutual_request_converges (id1 t1 id2 t2 A B : String) (s : LS.State)
    (ua ub : LS.User)
    (hA : LS.findUser s.users A = some ua) (hB : LS.findUser s.users B = some ub)
    (hne : A ≠ B)
    (haf : B ∉ ua.friends) (hbf : A ∉ ub.friends)
    (has : B ∉ ua.friendRequestsSent) (har : B ∉ ua.friendRequestsReceived)
    (hbs : A ∉ ub.friendRequestsSent) :
    (LS.sendFriendRequest id1 t1 A B s).2
        = { ok := true, msg := "Friend request sent to " ++ B ++ "!" } ∧
    (LS.sendFriendRequest id2 t2 B A (LS.sendFriendRequest id1 t1 A B s).1).2
        = { ok := true, msg := "You are now friends with " ++ A ++ "!" } ∧
    (∃ uA, LS.findUser
        (LS.sendFriendRequest id2 t2 B A (LS.sendFriendRequest id1 t1 A B s).1).1.users A
          = some uA ∧
        B ∈ uA.friends ∧ B ∉ uA.friendRequestsSent ∧ B ∉ uA.friendRequestsReceived) ∧
    (∃ uB, LS.findUser
        (LS.sendFriendRequest id2 t2 B A (LS.sendFriendRequest id1 t1 A B s).1).1.users B
          = some uB ∧
        A ∈ uB.friends ∧ A ∉ uB.friendRequestsSent ∧ A ∉ uB.friendRequestsReceived) := by
  have hnf := contains_eq_false_of_not_mem haf
  have hns := contains_eq_false_of_not_mem has
  have hnr := contains_eq_false_of_not_mem har
  obtain ⟨hres1, hA1, hB1⟩ := LS_send_spec id1 t1 A B s ua ub hA hB hne hnf hns hnr
  set s1 := (LS.sendFriendRequest id1 t1 A B s).1 with hs1def
  have hsend2 : LS.sendFriendRequest id2 t2 B A s1
      = LS.acceptFriendRequest id2 t2 B A s1 := by
    unfold LS.sendFriendRequest LS.getUserByName
    rw [beq_eq_false_iff_ne.mpr hne.symm, hA1, hB1]
    dsimp only [LS.pushNotifUpd, LS.appendReceivedUpd]
    rw [contains_eq_false_of_not_mem hbf, contains_eq_false_of_not_mem hbs,
      contains_eq_true_of_mem (show A ∈ ub.friendRequestsReceived ++ [A] by simp)]
    simp only [Bool.false_eq_true, if_false, if_true]
  rw [hsend2]
  obtain ⟨hres2, hBfin, hAfin⟩ := LS_accept_spec id2 t2 B A s1
    (LS.pushNotifUpd (LS.mkNotif id1 t1 "friend_request" A (NData.dFrom A))
      (LS.appendReceivedUpd A ub))
    (LS.appendSentUpd B ua) hB1 hA1 hne.symm
  refine ⟨hres1, hres2, ⟨_, hAfin, ?_, ?_, ?_⟩, ⟨_, hBfin, ?_, ?_, ?_⟩⟩
  · dsimp only [LS.appendSentUpd]
    rw [hnf]
    simp
  · dsimp only [LS.appendSentUpd]
    exact not_mem_filter_bne B (ua.friendRequestsSent ++ [B])
  · dsimp only [LS.appendSentUpd]
    exact har
  · dsimp only [LS.pushNotifUpd, LS.appendReceivedUpd]
    rw [contains_eq_false_of_not_mem hbf]
    simp
  · dsimp only [LS.pushNotifUpd, LS.appendReceivedUpd]
    exact hbs
  · dsimp only [LS.pushNotifUpd, LS.appendReceivedUpd]
    exact not_mem_filter_bne A (ub.friendRequestsReceived ++ [A])

/-! ### Helper lemmas about the Firebase backend -/

theorem getUserByNameFB_some {s : FB.State} {n : String} {u : FB.User}
    (h : FB.getUserByName s n = some u) :
    (n == "") = false ∧ getItem s.users n = some u := by
  unfold FB.getUserByName at h
  cases hn : (n == "") with
  | true => rw [hn] at h; simp at h
  | false =>
    rw [hn] at h
    simp only [Bool.false_eq_true, if_false] at h
    exact ⟨rfl, h⟩

theorem FB_accept_users_isSome (id time my fr u : String) (s : FB.State) :
    (FB.getUserByName (FB.acceptFriendRequest id time my fr s).1 u).isSome
      = (FB.getUserByName s u).isSome := by
  unfold FB.acceptFriendRequest
  split
  · dsimp only
    unfold FB.getUserByName FB.addNotification
    cases hu : (u == "") with
    | true => rfl
    | false =>
      simp only [Bool.false_eq_true, if_false]
      rw [getItem_updItem_isSome, getItem_updItem_isSome]
  · rfl

theorem FB_send_users_isSome (id time A B u : String) (s : FB.State) :
    (FB.getUserByName (FB.sendFriendRequest id time A B s).1 u).isSome
      = (FB.getUserByName s u).isSome := by
  unfold FB.sendFriendRequest
  cases hab : (A == B) with
  | true => rfl
  | false =>
    simp only [Bool.false_eq_true, if_false]
    split
    · rfl
    · rfl
    · split
      · rfl
      · split
        · rfl
        · split
          · exact FB_accept_users_isSome id time A B u s
          · dsimp only
            unfold FB.getUserByName FB.addNotification
            cases hu : (u == "") with
            | true => rfl
            | false =>
              simp only [Bool.false_eq_true, if_false]
              split
              · rw [getItem_updItem_isSome]
              · rw [getItem_updItem_isSome, getItem_updItem_isSome]

/-- Effect of social.js `acceptFriendRequest` when both users exist and
differ: mutual friendship (idempotent insert) and all four pending-request
lists of the pair cleared — the defensive symmetric cleanup. -/
theorem FB_accept_spec (id time my fr : String) (s : FB.State) (mu fu : FB.User)
    (hmy : FB.getUserByName s my = some mu) (hfr : FB.getUserByName s fr = some fu)
    (hne : my ≠ fr) :
    (FB.acceptFriendRequest id time my fr s).2
        = { ok := true, msg := "You are now friends with " ++ fr ++ "!" } ∧
    FB.getUserByName (FB.acceptFriendRequest id time my fr s).1 my
        = some { mu with
            friends := if mu.friends.contains fr then mu.friends else mu.friends ++ [fr],
            friendRequestsReceived := mu.friendRequestsReceived.filter (fun x => x != fr),
            friendRequestsSent := mu.friendRequestsSent.filter (fun x => x != fr) } ∧
    FB.getUserByName (FB.acceptFriendRequest id time my fr s).1 fr
        = some { fu with
            friends := if fu.friends.contains my then fu.friends else fu.friends ++ [my],
            friendRequestsSent := fu.friendRequestsSent.filter (fun x => x != my),
            friendRequestsReceived := fu.friendRequestsReceived.filter (fun x => x != my) } := by
  obtain ⟨hmyne, hmyget⟩ := getUserByNameFB_some hmy
  obtain ⟨hfrne, hfrget⟩ := getUserByNameFB_some hfr
  unfold FB.acceptFriendRequest
  rw [hmy, hfr]
  dsimp only
  refine ⟨rfl, ?_, ?_⟩
  · unfold FB.getUserByName FB.addNotification
    rw [hmyne]
    simp only [Bool.false_eq_true, if_false]
    rw [getItem_updItem_ne _ fr my _ hne, getItem_updItem_self, hmyget]
    rfl
  · unfold FB.getUserByName FB.addNotification
    rw [hfrne]
    simp only [Bool.false_eq_true, if_false]
    rw [getItem_updItem_self, getItem_updItem_ne _ my fr _ hne.symm, hfrget]
    rfl

/-- C1 counterexample: in the localStorage engine `acceptFriendRequest`
clears only the accepter's `friendRequestsReceived` and the requester's
`friendRequestsSent`.  From the reachable store `c1Stale` (both users
exist and are distinct), running `sendRequest(alice,bob)` then
`acceptRequest(bob,alice)` ends with alice's `friendRequestsReceived`
still containing bob and bob's `friendRequestsSent` still containing
alice, so the four pending-request lists are not all clear. -/
theorem ls_accept_leaves_stale_pending :
    (LS.getUserByName c1Final "alice").map LS.User.friendRequestsReceived = some ["bob"] ∧
    (LS.getUserByName c1Final "bob").map LS.User.friendRequestsSent = some ["alice"] ∧
    (LS.getUserByName c1Final "alice").map LS.User.friends = some ["bob"] ∧
    (LS.getUserByName c1Final "bob").map LS.User.friends = some ["alice"] := by
  decide

/-- C1 (amended): in the Firebase backend the claim holds for every
starting state: for distinct existing users A and B, `sendRequest(A,B)`
followed by `acceptRequest(B,A)` leaves the two friends lists containing
each other and all four pending-request lists free of the pair, thanks to
the accept's defensive symmetric cleanup. -/
theorem send_then_accept_clears_pending (id1 t1 id2 t2 A B : String) (s : FB.State)
    (hne : A ≠ B)
    (hA : (FB.getUserByName s A).isSome = true)
    (hB : (FB.getUserByName s B).isSome = true) :
    (∃ uA, FB.getUserByName
        (FB.acceptFriendRequest id2 t2 B A (FB.sendFriendRequest id1 t1 A B s).1).1 A
          = some uA ∧
        B ∈ uA.friends ∧ B ∉ uA.friendRequestsSent ∧ B ∉ uA.friendRequestsReceived) ∧
    (∃ uB, FB.getUserByName
        (FB.acceptFriendRequest id2 t2 B A (FB.sendFriendRequest id1 t1 A B s).1).1 B
          = some uB ∧
        A ∈ uB.friends ∧ A ∉ uB.friendRequestsSent ∧ A ∉ uB.friendRequestsReceived) := by
  set s1 := (FB.sendFriendRequest id1 t1 A B s).1 with hs1
  have hA1 : (FB.getUserByName s1 A).isSome = true := by
    rw [hs1, FB_send_users_isSome]; exact hA
  have hB1 : (FB.getUserByName s1 B).isSome = true := by
    rw [hs1, FB_send_users_isSome]; exact hB
  obtain ⟨ua1, hua1⟩ := Option.isSome_iff_exists.mp hA1
  obtain ⟨ub1, hub1⟩ := Option.isSome_iff_exists.mp hB1
  obtain ⟨hres, hBfin, hAfin⟩ := FB_accept_spec id2 t2 B A s1 ub1 ua1 hub1 hua1 hne.symm
  refine ⟨⟨_, hAfin, ?_, ?_, ?_⟩, ⟨_, hBfin, ?_, ?_, ?_⟩⟩
  · by_cases hc : ua1.friends.contains B = true
    · rw [if_pos hc]; simpa using hc
    · rw [if_neg hc]; simp
  · exact not_mem_filter_bne B ua1.friendRequestsSent
  · exact not_mem_filter_bne B ua1.friendRequestsReceived
  · by_cases hc : ub1.friends.contains A = true
    · rw [if_pos hc]; simpa using hc
    · rw [if_neg hc]; simp
  · exact not_mem_filter_bne A ub1.friendRequestsSent
  · exact not_mem_filter_bne A ub1.friendRequestsReceived

/-- Witness for `send_then_accept_clears_pending` on a concrete two-user
Firebase store. -/
theorem send_then_accept_clears_pending_witness :
    ∃ uA, FB.getUserByName
        (FB.acceptFriendRequest "i2" "t2" "bob" "alice"
          (FB.sendFriendRequest "i1" "t1" "alice" "bob" fbAliceBob).1).1 "alice"
          = some uA ∧
        "bob" ∈ uA.friends ∧ "bob" ∉ uA.friendRequestsSent ∧
        "bob" ∉ uA.friendRequestsReceived :=
  (send_then_accept_clears_pending "i1" "t1" "i2" "t2" "alice" "bob" fbAliceBob
    (by decide) (by decide) (by decide)).1

/-- Witness for `mutual_request_converges` on a concrete two-user store:
bob's counter-request comes back as the friend-accept outcome. -/
theorem mutual_request_converges_witness :
    (LS.sendFriendRequest "i2" "t2" "bob" "alice"
        (LS.sendFriendRequest "i1" "t1" "alice" "bob" lsAliceBob).1).2
      = { ok := true, msg := "You are now friends with " ++ "alice" ++ "!" } :=
  (mutual_request_converges "i1" "t1" "i2" "t2" "alice" "bob" lsAliceBob
    (LS.mkUser "alice") (LS.mkUser "bob") (by decide) (by decide) (by decide)
    (by decide) (by decide) (by decide) (by decide) (by decide)).2.1

set_option maxRecDepth 40000

/-- C3 counterexample: the Firebase `addNotification` stores each
notification under `notifications/<user>/<id>` with no retention cap:
sixty pushes to one user leave sixty stored notifications, not 50. -/
theorem fb_notification_log_uncapped :
    ((getItem (fbPushUpTo 60 fbAliceBob).notifs "alice").getD []).length = 60 := by
  decide

/-- C3 (amended): in the localStorage engine, `pushNotification` prepends
the stamped notification and truncates the log to the 50 most recent, so a
store whose logs respect the cap keeps respecting it; and pushing sixty
notifications to one user leaves exactly the 50 most recent, newest
first. -/
theorem notification_cap (id time target ty fr : String) (d : NData) (s : LS.State)
    (u : LS.User) (hu : LS.findUser s.users target = some u)
    (hcap : ∀ v ∈ s.users, v.notifications.length ≤ 50) :
    LS.findUser (LS.pushNotification id time target ty fr d s).1.users target
      = some { u with notifications := (LS.mkNotif id time ty fr d :: u.notifications).take 50 } ∧
    (∀ v ∈ (LS.pushNotification id time target ty fr d s).1.users,
        v.notifications.length ≤ 50) ∧
    (LS.findUser (lsPushUpTo 60 lsAliceBob).users "alice").map
        (fun v => v.notifications.map Notif.id)
      = some (((List.range 60).reverse.take 50).map (fun i => "n" ++ toString i)) := by
  have hsixty : (LS.findUser (lsPushUpTo 60 lsAliceBob).users "alice").map
        (fun v => v.notifications.map Notif.id)
      = some (((List.range 60).reverse.take 50).map (fun i => "n" ++ toString i)) := by
    decide
  have hex : s.users.any (fun v => v.username == target) = true := by
    rw [← findUser_isSome_eq_any, hu]; rfl
  refine ⟨?_, ?_, hsixty⟩
  · rw [pushNotification_spec id time target ty fr d s hex]
    dsimp only
    rw [findUser_upd_self_push, hu]
    rfl
  · intro v hv
    rw [pushNotification_spec id time target ty fr d s hex] at hv
    dsimp only at hv
    rcases mem_updFirst _ _ _ v hv with h' | ⟨y, hy, rfl⟩
    · exact hcap v h'
    · simpa [LS.pushNotifUpd, List.length_take] using Nat.min_le_left 50 _

/-- Witness for `notification_cap`: one push to a fresh user. -/
theorem notification_cap_witness :
    LS.findUser (LS.pushNotification "n0" "t" "alice" "dm" "bob"
        NData.noneData lsAliceBob).1.users "alice"
      = some { LS.mkUser "alice" with
          notifications := (LS.mkNotif "n0" "t" "dm" "bob" NData.noneData
              :: (LS.mkUser "alice").notifications).take 50 } :=
  (notification_cap "n0" "t" "alice" "dm" "bob" NData.noneData lsAliceBob
    (LS.mkUser "alice") (by decide) (by decide)).1

/-- C4 counterexample: Firebase `addNotification` never checks that the
target exists; pushing to a username with no user record still creates a
notification record for it. -/
theorem fb_push_to_missing_user_creates_record :
    FB.getUserByName FB.emptyState "ghost" = none ∧
    getItem (FB.addNotification "n1" "t1" "ghost" "dm" "alice"
        NData.noneData FB.emptyState).notifs "ghost"
      = some [("n1", { type := "dm", from_ := "alice", data := NData.noneData,
                       id := "n1", time := "t1", read := false })] := by
  decide

/-- C4 (amended): in the localStorage engine, pushing a notification to a
username that has no user record returns `false` and leaves the whole
store state unchanged. -/
theorem push_to_missing_user_noop (id time target ty fr : String) (d : NData)
    (s : LS.State) (h : LS.findUser s.users target = none) :
    LS.pushNotification id time target ty fr d s = (s, false) := by
  unfold LS.pushNotification
  have hany : s.users.any (fun u => u.username == target) = false := by
    rw [← findUser_isSome_eq_any, h]; rfl
  rw [hany]
  simp

/-- Witness for `push_to_missing_user_noop` on a concrete store. -/
theorem push_to_missing_user_noop_witness :
    LS.pushNotification "n1" "t1" "ghost" "dm" "alice" NData.noneData lsAliceBob
      = (lsAliceBob, false) :=
  push_to_missing_user_noop "n1" "t1" "ghost" "dm" "alice" NData.noneData lsAliceBob
    (by decide)

/-- C5 counterexample: after `sendRequest(alice,bob)` then
`acceptRequest(bob,alice)` on a fresh two-user store, bob's only
notification is the `friend_request` from alice and its read flag is still
`false`: `acceptFriendRequest` never marks notifications read. -/
theorem accept_leaves_friend_request_unread :
    (LS.getUserByName c5Final "bob").map
        (fun u => u.notifications.map (fun n => (n.type, n.from_, n.read)))
      = some [("friend_request", "alice", false)] := by
  decide

/-- C5 (amended): `acceptRequest(me, from)` leaves me's notification log
untouched (any pending `friend_request` notification stays unread until
`markNotificationsRead`) and prepends an unread `friend_accept`
notification to `from`'s log. -/
theorem accept_notifications_effect (id time me fr : String) (s : LS.State)
    (mu fu : LS.User)
    (hme : LS.findUser s.users me = some mu) (hfr : LS.findUser s.users fr = some fu)
    (hne : me ≠ fr) :
    (LS.findUser (LS.acceptFriendRequest id time me fr s).1.users me).map
        LS.User.notifications = some mu.notifications ∧
    (LS.findUser (LS.acceptFriendRequest id time me fr s).1.users fr).map
        LS.User.notifications
      = some ((LS.mkNotif id time "friend_accept" me (NData.dFrom me)
          :: fu.notifications).take 50) := by
  obtain ⟨_, hmef, hfrf⟩ := LS_accept_spec id time me fr s mu fu hme hfr hne
  rw [hmef, hfrf]
  exact ⟨rfl, rfl⟩

/-- Witness for `accept_notifications_effect`: bob accepts alice's request
on the concrete store; alice gets the friend-accept notification. -/
theorem accept_notifications_effect_witness :
    (LS.findUser (LS.acceptFriendRequest "i2" "t2" "bob" "alice" c5AfterSend).1.users
        "bob").map LS.User.notifications
      = some (LS.pushNotifUpd
          (LS.mkNotif "i1" "t1" "friend_request" "alice" (NData.dFrom "alice"))
          (LS.appendReceivedUpd "alice" (LS.mkUser "bob"))).notifications ∧
    (LS.findUser (LS.acceptFriendRequest "i2" "t2" "bob" "alice" c5AfterSend).1.users
        "alice").map LS.User.notifications
      = some ((LS.mkNotif "i2" "t2" "friend_accept" "bob" (NData.dFrom "bob")
          :: (LS.appendSentUpd "bob" (LS.mkUser "alice")).notifications).take 50) :=
  accept_notifications_effect "i2" "t2" "bob" "alice" c5AfterSend
    (LS.pushNotifUpd (LS.mkNotif "i1" "t1" "friend_request" "alice" (NData.dFrom "alice"))
      (LS.appendReceivedUpd "alice" (LS.mkUser "bob")))
    (LS.appendSentUpd "bob" (LS.mkUser "alice")) (by decide) (by decide) (by decide)

/-! ### Reaction-toggle lemmas -/

theorem getItem_eq_none_of_not_mem_keys {α : Type} (l : List (String × α)) (k : String)
    (h : k ∉ l.map Prod.fst) : getItem l k = none := by
  induction l with
  | nil => rfl
  | cons p rest ih =>
    simp only [List.map_cons, List.mem_cons, not_or] at h
    have hpk : (p.1 == k) = false := beq_eq_false_iff_ne.mpr (fun hh => h.1 hh.symm)
    unfold getItem
    rw [List.find?]
    rw [hpk]
    exact ih h.2

theorem reactToggle_lookup_other (emoji u e : String) (R : List (String × List String))
    (h : e ≠ emoji) :
    getItem (LS.reactToggle emoji u R) e = getItem R e := by
  induction R with
  | nil =>
    have hee : (emoji == e) = false := beq_eq_false_iff_ne.mpr (fun hh => h hh.symm)
    simp [LS.reactToggle, getItem, List.find?, hee]
  | cons p rest ih =>
    obtain ⟨pe, arr⟩ := p
    by_cases hpe : (pe == emoji) = true
    · have hpeq : pe = emoji := by simpa using hpe
      subst hpeq
      have hpee : (pe == e) = false := beq_eq_false_iff_ne.mpr (fun hh => h hh.symm)
      rw [show LS.reactToggle pe u ((pe, arr) :: rest)
          = (if arr.contains u then
              (if (arr.erase u).isEmpty then rest else (pe, arr.erase u) :: rest)
             else (pe, arr ++ [u]) :: rest) by simp [LS.reactToggle]]
      by_cases hc : arr.contains u = true
      · rw [if_pos hc]
        by_cases hemp : (arr.erase u).isEmpty = true
        · rw [if_pos hemp]
          unfold getItem
          conv_rhs => rw [List.find?]
          rw [hpee]
        · rw [if_neg hemp]
          unfold getItem
          rw [List.find?]
          conv_rhs => rw [List.find?]
          rw [hpee]
      · rw [if_neg hc]
        unfold getItem
        rw [List.find?]
        conv_rhs => rw [List.find?]
        rw [hpee]
    · have hpe' : (pe == emoji) = false := by simpa using hpe
      rw [show LS.reactToggle emoji u ((pe, arr) :: rest)
          = (pe, arr) :: LS.reactToggle emoji u rest by simp [LS.reactToggle, hpe']]
      by_cases hpee : (pe == e) = true
      · unfold getItem
        rw [List.find?]
        conv_rhs => rw [List.find?]
        rw [hpee]
      · have hpee' : (pe == e) = false := by simpa using hpee
        unfold getItem
        rw [List.find?]
        conv_rhs => rw [List.find?]
        rw [hpee']
        exact ih

theorem reactToggle_lookup_self (emoji u : String) (R : List (String × List String))
    (hkeys : (R.map Prod.fst).Nodup) :
    (getItem (LS.reactToggle emoji u R) emoji).getD []
      = (if ((getItem R emoji).getD []).contains u
         then ((getItem R emoji).getD []).erase u
         else ((getItem R emoji).getD []) ++ [u]) := by
  induction R with
  | nil =>
    simp [LS.reactToggle, getItem, List.find?]
  | cons p rest ih =>
    obtain ⟨pe, arr⟩ := p
    by_cases hpe : (pe == emoji) = true
    · have hpeq : pe = emoji := by simpa using hpe
      subst hpeq
      have hlook : (getItem ((pe, arr) :: rest) pe).getD [] = arr := by
        unfold getItem
        rw [List.find?]
        simp
      rw [hlook]
      rw [show LS.reactToggle pe u ((pe, arr) :: rest)
          = (if arr.contains u then
              (if (arr.erase u).isEmpty then rest else (pe, arr.erase u) :: rest)
             else (pe, arr ++ [u]) :: rest) by simp [LS.reactToggle]]
      by_cases hc : arr.contains u = true
      · rw [if_pos hc, if_pos hc]
        by_cases hemp : (arr.erase u).isEmpty = true
        · rw [if_pos hemp]
          have hnotin : pe ∉ rest.map Prod.fst := by
            simp only [List.map_cons, List.nodup_cons] at hkeys
            exact hkeys.1
          rw [getItem_eq_none_of_not_mem_keys rest pe hnotin]
          simp only [List.isEmpty_iff] at hemp
          rw [hemp]
          rfl
        · rw [if_neg hemp]
          unfold getItem
          rw [List.find?]
          simp
      · rw [if_neg hc, if_neg hc]
        unfold getItem
        rw [List.find?]
        simp
    · have hpe' : (pe == emoji) = false := by simpa using hpe
      rw [show LS.reactToggle emoji u ((pe, arr) :: rest)
          = (pe, arr) :: LS.reactToggle emoji u rest by simp [LS.reactToggle, hpe']]
      have hkt : (rest.map Prod.fst).Nodup := by
        simp only [List.map_cons, List.nodup_cons] at hkeys
        exact hkeys.2
      have hskip1 : getItem ((pe, arr) :: LS.reactToggle emoji u rest) emoji
          = getItem (LS.reactToggle emoji u rest) emoji := by
        unfold getItem
        rw [List.find?]
        rw [hpe']
      have hskip2 : getItem ((pe, arr) :: rest) emoji = getItem rest emoji := by
        unfold getItem
        rw [List.find?]
        rw [hpe']
      rw [hskip1, hskip2]
      exact ih hkt

theorem reactToggle_keys_nodup (emoji u : String) (R : List (String × List String))
    (hkeys : (R.map Prod.fst).Nodup) :
    ((LS.reactToggle emoji u R).map Prod.fst).Nodup ∧
    (∀ k ∈ (LS.reactToggle emoji u R).map Prod.fst, k ∈ R.map Prod.fst ∨ k = emoji) := by
  induction R with
  | nil =>
    refine ⟨by simp [LS.reactToggle], ?_⟩
    intro k hk
    simp [LS.reactToggle] at hk
    simp [hk]
  | cons p rest ih =>
    obtain ⟨pe, arr⟩ := p
    simp only [List.map_cons, List.nodup_cons] at hkeys
    by_cases hpe : (pe == emoji) = true
    · have hpeq : pe = emoji := by simpa using hpe
      subst hpeq
      rw [show LS.reactToggle pe u ((pe, arr) :: rest)
          = (if arr.contains u then
              (if (arr.erase u).isEmpty then rest else (pe, arr.erase u) :: rest)
             else (pe, arr ++ [u]) :: rest) by simp [LS.reactToggle]]
      by_cases hc : arr.contains u = true
      · rw [if_pos hc]
        by_cases hemp : (arr.erase u).isEmpty = true
        · rw [if_pos hemp]
          exact ⟨hkeys.2, fun k hk => Or.inl (by simp [hk])⟩
        · rw [if_neg hemp]
          refine ⟨by rw [List.map_cons, List.nodup_cons]; exact ⟨hkeys.1, hkeys.2⟩, ?_⟩
          intro k hk
          simp only [List.map_cons, List.mem_cons] at hk
          rcases hk with hk | hk
          · exact Or.inr hk
          · exact Or.inl (by simp [hk])
      · rw [if_neg hc]
        refine ⟨by rw [List.map_cons, List.nodup_cons]; exact ⟨hkeys.1, hkeys.2⟩, ?_⟩
        intro k hk
        simp only [List.map_cons, List.mem_cons] at hk
        rcases hk with hk | hk
        · exact Or.inr hk
        · exact Or.inl (by simp [hk])
    · have hpe' : pe ≠ emoji := fun hh => hpe (by simp [hh])
      rw [show LS.reactToggle emoji u ((pe, arr) :: rest)
          = (pe, arr) :: LS.reactToggle emoji u rest by
            simp [LS.reactToggle, show (pe == emoji) = false by simpa using hpe]]
      obtain ⟨ihn, ihs⟩ := ih hkeys.2
      refine ⟨?_, ?_⟩
      · rw [List.map_cons, List.nodup_cons]
        refine ⟨?_, ihn⟩
        intro hmem
        rcases ihs pe hmem with h' | h'
        · exact hkeys.1 h'
        · exact hpe' h'
      · intro k hk
        simp only [List.map_cons, List.mem_cons] at hk
        rcases hk with hk | hk
        · exact Or.inl (by simp [hk])
        · rcases ihs k hk with h' | h'
          · exact Or.inl (by simp [h'])
          · exact Or.inr h'

theorem reactToggle_entries_nodup (emoji u : String) (R : List (String × List String))
    (hnd : ∀ p ∈ R, p.2.Nodup) :
    ∀ p ∈ LS.reactToggle emoji u R, p.2.Nodup := by
  induction R with
  | nil =>
    intro p hp
    simp [LS.reactToggle] at hp
    simp [hp]
  | cons q rest ih =>
    obtain ⟨pe, arr⟩ := q
    have harr : arr.Nodup := hnd (pe, arr) (by simp)
    have hrest : ∀ p ∈ rest, p.2.Nodup := fun p hp => hnd p (by simp [hp])
    intro p hp
    by_cases hpe : (pe == emoji) = true
    · have hpeq : pe = emoji := by simpa using hpe
      subst hpeq
      rw [show LS.reactToggle pe u ((pe, arr) :: rest)
          = (if arr.contains u then
              (if (arr.erase u).isEmpty then rest else (pe, arr.erase u) :: rest)
             else (pe, arr ++ [u]) :: rest) by simp [LS.reactToggle]] at hp
      by_cases hc : arr.contains u = true
      · rw [if_pos hc] at hp
        by_cases hemp : (arr.erase u).isEmpty = true
        · rw [if_pos hemp] at hp
          exact hrest p hp
        · rw [if_neg hemp] at hp
          rcases List.mem_cons.mp hp with hp | hp
          · rw [hp]
            exact harr.erase u
          · exact hrest p hp
      · rw [if_neg hc] at hp
        rcases List.mem_cons.mp hp with hp | hp
        · rw [hp]
          have hu : u ∉ arr := fun hm => by
            rw [contains_eq_true_of_mem hm] at hc
            exact hc rfl
          refine harr.append (by simp) ?_
          simp [List.disjoint_singleton]
          exact hu
        · exact hrest p hp
    · rw [show LS.reactToggle emoji u ((pe, arr) :: rest)
          = (pe, arr) :: LS.reactToggle emoji u rest by
            simp [LS.reactToggle, show (pe == emoji) = false by simpa using hpe]] at hp
      rcases List.mem_cons.mp hp with hp | hp
      · rw [hp]
        exact harr
      · exact ih hrest p hp

theorem reactToggle_no_empty (emoji u : String) (R : List (String × List String))
    (hne : ∀ p ∈ R, p.2 ≠ []) :
    ∀ p ∈ LS.reactToggle emoji u R, p.2 ≠ [] := by
  induction R with
  | nil =>
    intro p hp
    simp [LS.reactToggle] at hp
    simp [hp]
  | cons q rest ih =>
    obtain ⟨pe, arr⟩ := q
    have hrest : ∀ p ∈ rest, p.2 ≠ [] := fun p hp => hne p (by simp [hp])
    intro p hp
    by_cases hpe : (pe == emoji) = true
    · have hpeq : pe = emoji := by simpa using hpe
      subst hpeq
      rw [show LS.reactToggle pe u ((pe, arr) :: rest)
          = (if arr.contains u then
              (if (arr.erase u).isEmpty then rest else (pe, arr.erase u) :: rest)
             else (pe, arr ++ [u]) :: rest) by simp [LS.reactToggle]] at hp
      by_cases hc : arr.contains u = true
      · rw [if_pos hc] at hp
        by_cases hemp : (arr.erase u).isEmpty = true
        · rw [if_pos hemp] at hp
          exact hrest p hp
        · rw [if_neg hemp] at hp
          rcases List.mem_cons.mp hp with hp | hp
          · rw [hp]
            intro hnil
            rw [show arr.erase u = [] from hnil] at hemp
            exact hemp rfl
          · exact hrest p hp
      · rw [if_neg hc] at hp
        rcases List.mem_cons.mp hp with hp | hp
        · rw [hp]
          simp
        · exact hrest p hp
    · rw [show LS.reactToggle emoji u ((pe, arr) :: rest)
          = (pe, arr) :: LS.reactToggle emoji u rest by
            simp [LS.reactToggle, show (pe == emoji) = false by simpa using hpe]] at hp
      rcases List.mem_cons.mp hp with hp | hp
      · rw [hp]
        exact hne (pe, arr) (by simp)
      · exact ih hrest p hp

theorem reactToggle_twice_mem (emoji u : String) (R : List (String × List String))
    (hkeys : (R.map Prod.fst).Nodup) (hnd : ∀ p ∈ R, p.2.Nodup) :
    ∀ e x, x ∈ (getItem (LS.reactToggle emoji u (LS.reactToggle emoji u R)) e).getD []
      ↔ x ∈ (getItem R e).getD [] := by
  intro e x
  by_cases he : e = emoji
  · subst he
    have hk1 := (reactToggle_keys_nodup e u R hkeys).1
    rw [reactToggle_lookup_self e u _ hk1, reactToggle_lookup_self e u R hkeys]
    have harrnd : ((getItem R e).getD []).Nodup := by
      cases hfind : getItem R e with
      | none => simp
      | some l =>
        simp only [Option.getD_some]
        unfold getItem at hfind
        cases hf2 : R.find? (fun kv => kv.1 == e) with
        | none => rw [hf2] at hfind; simp at hfind
        | some q =>
          rw [hf2] at hfind
          simp at hfind
          have hq := List.mem_of_find?_eq_some hf2
          rw [← hfind]
          exact hnd q hq
    set arr := (getItem R e).getD [] with harr
    by_cases hc : arr.contains u = true
    · rw [if_pos hc]
      have hnu : u ∉ arr.erase u := harrnd.not_mem_erase
      rw [if_neg (by rw [contains_eq_false_of_not_mem hnu]; exact Bool.false_ne_true)]
      by_cases hx : x = u
      · subst hx
        constructor
        · intro _
          simpa using hc
        · intro _
          simp
      · rw [List.mem_append]
        constructor
        · intro hm
          rcases hm with hm | hm
          · exact (List.mem_erase_of_ne hx).mp hm
          · simp at hm
            exact absurd hm hx
        · intro hm
          exact Or.inl ((List.mem_erase_of_ne hx).mpr hm)
    · rw [if_neg hc]
      have hcontra : (arr ++ [u]).contains u = true := contains_eq_true_of_mem (by simp)
      rw [if_pos hcontra]
      have hu : u ∉ arr := fun hm => hc (contains_eq_true_of_mem hm)
      rw [List.erase_append_right _ hu]
      simp
  · rw [reactToggle_lookup_other emoji u e _ he, reactToggle_lookup_other emoji u e R he]

/-- One `addReaction` call on a channel containing the target message
rewrites exactly that message's reaction map with `reactToggle`. -/
theorem addReaction_found (bastionId channelName msgId emoji username : String)
    (s : LS.State) (m : BMsg)
    (hm : (LS.getChannelMsgs s bastionId channelName).find? (fun mm => mm.id == msgId)
        = some m) :
    LS.getChannelMsgs (LS.addReaction bastionId channelName msgId emoji username s)
        bastionId channelName
      = updFirst (fun mm => mm.id == msgId)
          (fun mm => { mm with reactions := LS.reactToggle emoji username mm.reactions })
          (LS.getChannelMsgs s bastionId channelName) := by
  unfold LS.getChannelMsgs at hm ⊢
  unfold LS.addReaction
  dsimp only
  rw [hm]
  dsimp only
  rw [getItem_setItem_self]
  rfl

/-- C6: in the localStorage engine, reaction toggling is an involution on
the reaction state: for an existing channel message whose reaction map has
unique emoji keys, duplicate-free user arrays and no empty entries (the
invariants `sendBastionChannelMessage` and `addReaction` maintain),
toggling the same (message, emoji, user) twice restores exactly the
original emoji → reactor-set mapping; after either toggle no emoji entry
is left with an empty user set (an emptied entry is deleted outright), and
no other field of the message changes. -/
theorem reaction_toggle_involution (bastionId channelName msgId emoji username : String)
    (s : LS.State) (m : BMsg)
    (hm : (LS.getChannelMsgs s bastionId channelName).find? (fun mm => mm.id == msgId)
        = some m)
    (hkeys : (m.reactions.map Prod.fst).Nodup)
    (hnd : ∀ p ∈ m.reactions, p.2.Nodup)
    (hne : ∀ p ∈ m.reactions, p.2 ≠ []) :
    ∃ m1 m2,
      (LS.getChannelMsgs (LS.addReaction bastionId channelName msgId emoji username s)
          bastionId channelName).find? (fun mm => mm.id == msgId) = some m1 ∧
      (LS.getChannelMsgs (LS.addReaction bastionId channelName msgId emoji username
            (LS.addReaction bastionId channelName msgId emoji username s))
          bastionId channelName).find? (fun mm => mm.id == msgId) = some m2 ∧
      m1.reactions = LS.reactToggle emoji username m.reactions ∧
      m2.reactions
        = LS.reactToggle emoji username (LS.reactToggle emoji username m.reactions) ∧
      (∀ e x, x ∈ (getItem m2.reactions e).getD [] ↔ x ∈ (getItem m.reactions e).getD []) ∧
      (∀ p ∈ m1.reactions, p.2 ≠ []) ∧ (∀ p ∈ m2.reactions, p.2 ≠ []) ∧
      m2.id = m.id ∧ m2.from_ = m.from_ ∧ m2.text = m.text ∧
      m2.time = m.time ∧ m2.timestamp = m.timestamp := by
  have hchan1 := addReaction_found bastionId channelName msgId emoji username s m hm
  have hfind1 : (LS.getChannelMsgs
      (LS.addReaction bastionId channelName msgId emoji username s)
      bastionId channelName).find? (fun mm => mm.id == msgId)
      = some { m with reactions := LS.reactToggle emoji username m.reactions } := by
    rw [hchan1]
    rw [find?_updFirst_pres (fun mm => mm.id == msgId)
      (fun mm => { mm with reactions := LS.reactToggle emoji username mm.reactions })
      (LS.getChannelMsgs s bastionId channelName) (fun a ha => ha)]
    rw [hm]
    rfl
  have hchan2 := addReaction_found bastionId channelName msgId emoji username
    (LS.addReaction bastionId channelName msgId emoji username s)
    { m with reactions := LS.reactToggle emoji username m.reactions } hfind1
  have hfind2 : (LS.getChannelMsgs (LS.addReaction bastionId channelName msgId emoji username
        (LS.addReaction bastionId channelName msgId emoji username s))
      bastionId channelName).find? (fun mm => mm.id == msgId)
      = some { m with reactions
          := LS.reactToggle emoji username (LS.reactToggle emoji username m.reactions) } := by
    rw [hchan2]
    rw [find?_updFirst_pres (fun mm => mm.id == msgId)
      (fun mm => { mm with reactions := LS.reactToggle emoji username mm.reactions })
      (LS.getChannelMsgs (LS.addReaction bastionId channelName msgId emoji username s)
        bastionId channelName) (fun a ha => ha)]
    rw [hfind1]
    rfl
  refine ⟨_, _, hfind1, hfind2, rfl, rfl, ?_, ?_, ?_, rfl, rfl, rfl, rfl, rfl⟩
  · exact reactToggle_twice_mem emoji username m.reactions hkeys hnd
  · exact reactToggle_no_empty emoji username m.reactions hne
  · exact reactToggle_no_empty emoji username (LS.reactToggle emoji username m.reactions)
      (reactToggle_no_empty emoji username m.reactions hne)

/-- Witness for `reaction_toggle_involution`: alice toggles 🔥 twice on a
message that bob already reacted to. -/
theorem reaction_toggle_involution_witness :
    ∃ m1 m2,
      (LS.getChannelMsgs (LS.addReaction "b1" "general" "m1" "fire" "alice" c6State)
          "b1" "general").find? (fun mm => mm.id == "m1") = some m1 ∧
      (LS.getChannelMsgs (LS.addReaction "b1" "general" "m1" "fire" "alice"
            (LS.addReaction "b1" "general" "m1" "fire" "alice" c6State))
          "b1" "general").find? (fun mm => mm.id == "m1") = some m2 ∧
      m1.reactions = LS.reactToggle "fire" "alice" c6Msg.reactions ∧
      m2.reactions
        = LS.reactToggle "fire" "alice" (LS.reactToggle "fire" "alice" c6Msg.reactions) ∧
      (∀ e x, x ∈ (getItem m2.reactions e).getD []
        ↔ x ∈ (getItem c6Msg.reactions e).getD []) ∧
      (∀ p ∈ m1.reactions, p.2 ≠ []) ∧ (∀ p ∈ m2.reactions, p.2 ≠ []) ∧
      m2.id = c6Msg.id ∧ m2.from_ = c6Msg.from_ ∧ m2.text = c6Msg.text ∧
      m2.time = c6Msg.time ∧ m2.timestamp = c6Msg.timestamp :=
  reaction_toggle_involution "b1" "general" "m1" "fire" "alice" c6State c6Msg
    (by decide) (by decide) (by decide) (by decide)

/-- C7 counterexample: the Firebase `addReaction` runs its transaction at
`bastionMsgs/<b>/<ch>/<msgId>/reactions/<emoji>` without checking that the
message exists; toggling under an absent message id creates a reaction
node there, changing the stored channel state. -/
theorem fb_reaction_on_missing_message_writes :
    FB.emptyState.bastionReacts = [] ∧
    getItem (FB.addReaction "b1" "general" "m404" "fire" "alice" FB.emptyState).bastionReacts
        (FB.Pbm "b1" "general")
      = some [("m404", [("fire", ["alice"])])] :=
  ⟨rfl, rfl⟩

/-- C7 (amended): in the localStorage engine, `addReaction` with a message
id that does not occur in the channel's log returns before any store
write: the whole state is unchanged. -/
theorem reaction_missing_message_noop (bastionId channelName msgId emoji username : String)
    (s : LS.State)
    (h : (LS.getChannelMsgs s bastionId channelName).find? (fun mm => mm.id == msgId)
        = none) :
    LS.addReaction bastionId channelName msgId emoji username s = s := by
  unfold LS.getChannelMsgs at h
  unfold LS.addReaction
  dsimp only
  rw [h]

/-- Witness for `reaction_missing_message_noop` at a concrete store. -/
theorem reaction_missing_message_noop_witness :
    LS.addReaction "b1" "general" "m404" "fire" "alice" c6State = c6State :=
  reaction_missing_message_noop "b1" "general" "m404" "fire" "alice" c6State (by decide)

/-! ### DM key lemmas -/

theorem charListLt_asymm : ∀ x y : List Char,
    charListLt x y = true → charListLt y x = false
  | [], [] => by simp [charListLt]
  | [], _ :: _ => by intro _; simp [charListLt]
  | _ :: _, [] => by simp [charListLt]
  | a :: as, b :: bs => by
    intro h
    unfold charListLt at h ⊢
    by_cases hab : a < b
    · rw [if_neg (lt_asymm hab), if_pos hab]
    · rw [if_neg hab] at h
      by_cases hba : b < a
      · rw [if_pos hba] at h
        exact absurd h Bool.false_ne_true
      · rw [if_neg hba] at h
        rw [if_neg hba, if_neg hab]
        exact charListLt_asymm as bs h

theorem charListLt_eq_of_both_false : ∀ x y : List Char,
    charListLt x y = false → charListLt y x = false → x = y
  | [], [] => by intro _ _; rfl
  | [], c :: cs => by intro h _; simp [charListLt] at h
  | c :: cs, [] => by intro _ h; simp [charListLt] at h
  | a :: as, b :: bs => by
    intro h1 h2
    unfold charListLt at h1 h2
    by_cases hab : a < b
    · rw [if_pos hab] at h1
      exact absurd h1 (by simp)
    · by_cases hba : b < a
      · rw [if_pos hba] at h2
        exact absurd h2 (by simp)
      · rw [if_neg hab, if_neg hba] at h1
        rw [if_neg hba, if_neg hab] at h2
        have hcs := charListLt_eq_of_both_false as bs h1 h2
        have hc : a = b := le_antisymm (not_lt.mp hba) (not_lt.mp hab)
        rw [hc, hcs]

theorem sortPair_symm (a b : String) : sortPair a b = sortPair b a := by
  unfold sortPair
  by_cases h1 : charListLt b.data a.data = true
  · rw [if_pos h1, if_neg (by rw [charListLt_asymm _ _ h1]; exact Bool.false_ne_true)]
  · have h1' : charListLt b.data a.data = false := by simpa using h1
    rw [if_neg h1]
    by_cases h2 : charListLt a.data b.data = true
    · rw [if_pos h2]
    · have h2' : charListLt a.data b.data = false := by simpa using h2
      rw [if_neg h2]
      have hd : a.data = b.data := charListLt_eq_of_both_false a.data b.data h2' h1'
      have hab : a = b := by
        cases a
        cases b
        exact congrArg String.mk hd
      rw [hab]

/-- C8 (amended): both backends build the canonical DM thread key by
sorting the two raw usernames with the default JS comparator and joining
with a fixed separator (no lower-casing is applied — registration already
normalizes usernames to lower case).  The key is therefore identical for
both participants independent of call order. -/
theorem dm_key_symmetric (a b : String) :
    LS.getDMKey a b = LS.getDMKey b a ∧ FB.Pdm a b = FB.Pdm b a := by
  unfold LS.getDMKey FB.Pdm
  rw [sortPair_symm a b]
  exact ⟨rfl, rfl⟩

/-- C8 counterexample: the key construction does not lower-case the
usernames.  For the pair ("Alice", "bob") the stored key keeps the capital
A, differing from the spec's lower-case-sort-join construction. -/
theorem dm_key_not_lowercased :
    LS.getDMKey "Alice" "bob" ≠ getDMKeyPerSpec "Alice" "bob" ∧
    LS.getDMKey "Alice" "bob" = "fortized_dm_Alice_bob" ∧
    getDMKeyPerSpec "Alice" "bob" = "fortized_dm_alice_bob" := by
  refine ⟨by decide, by decide, by decide⟩

/-- C9 counterexample: the localStorage engine has no stored partner
index: `getRecentDMPartners` scans thread keys in key-creation order with
no cap.  After alice messages bob and then carl, the most recent partner
carl is NOT at position 0 — bob is, because his thread key was created
first — and after messaging 31 distinct partners the list holds 31
entries, over the claimed cap of 30. -/
theorem ls_recent_partners_not_mru :
    LS.getRecentDMPartners c9s2 "alice" = ["bob", "carl"] ∧
    (LS.getRecentDMPartners c9s2 "alice").head? ≠ some "carl" ∧
    (LS.getRecentDMPartners (c9Many 31) "alice").length = 31 := by
  refine ⟨by decide, by decide, by decide⟩

/-- C9 (amended): in the Firebase backend, `sendDMMessage` rebuilds both
partner indexes as move-to-front + dedup + cap at 30: afterwards `to` is
at position 0 of `from`'s index and `from` at position 0 of `to`'s, both
indexes are duplicate-free (given they were before, which the operation
itself maintains) and hold at most 30 entries, and the dm notification
stored for `to` carries the first 60 characters of the text as preview. -/
theorem send_dm_updates_indexes (msgId ts tiso nid nt fromU toU text : String)
    (s : FB.State) (hne : fromU ≠ toU)
    (hmy : ((getItem s.dmIndex fromU).getD []).Nodup)
    (htheir : ((getItem s.dmIndex toU).getD []).Nodup) :
    (getItem (FB.sendDMMessage msgId ts tiso nid nt fromU toU text s).1.dmIndex fromU).getD []
      = (toU :: ((getItem s.dmIndex fromU).getD []).filter (fun x => x != toU)).take 30 ∧
    (getItem (FB.sendDMMessage msgId ts tiso nid nt fromU toU text s).1.dmIndex toU).getD []
      = (fromU :: ((getItem s.dmIndex toU).getD []).filter (fun x => x != fromU)).take 30 ∧
    ((getItem (FB.sendDMMessage msgId ts tiso nid nt fromU toU text s).1.dmIndex fromU).getD
        []).head? = some toU ∧
    ((getItem (FB.sendDMMessage msgId ts tiso nid nt fromU toU text s).1.dmIndex toU).getD
        []).head? = some fromU ∧
    ((getItem (FB.sendDMMessage msgId ts tiso nid nt fromU toU text s).1.dmIndex fromU).getD
        []).Nodup ∧
    ((getItem (FB.sendDMMessage msgId ts tiso nid nt fromU toU text s).1.dmIndex toU).getD
        []).Nodup ∧
    ((getItem (FB.sendDMMessage msgId ts tiso nid nt fromU toU text s).1.dmIndex fromU).getD
        []).length ≤ 30 ∧
    ((getItem (FB.sendDMMessage msgId ts tiso nid nt fromU toU text s).1.dmIndex toU).getD
        []).length ≤ 30 ∧
    getItem (FB.sendDMMessage msgId ts tiso nid nt fromU toU text s).1.notifs toU
      = some (setItem ((getItem s.notifs toU).getD []) nid
          { type := "dm", from_ := fromU,
            data := NData.dPreview ((text.data.take 60).asString),
            id := nid, time := nt, read := false }) := by
  have hfromIdx : (getItem (FB.sendDMMessage msgId ts tiso nid nt fromU toU text s).1.dmIndex
      fromU).getD []
      = (toU :: ((getItem s.dmIndex fromU).getD []).filter (fun x => x != toU)).take 30 := by
    unfold FB.sendDMMessage FB.addNotification
    dsimp only
    rw [getItem_setItem_ne _ toU fromU _ hne, getItem_setItem_self]
    rfl
  have htoIdx : (getItem (FB.sendDMMessage msgId ts tiso nid nt fromU toU text s).1.dmIndex
      toU).getD []
      = (fromU :: ((getItem s.dmIndex toU).getD []).filter (fun x => x != fromU)).take 30 := by
    unfold FB.sendDMMessage FB.addNotification
    dsimp only
    rw [getItem_setItem_self]
    rfl
  have hnotif : getItem (FB.sendDMMessage msgId ts tiso nid nt fromU toU text s).1.notifs toU
      = some (setItem ((getItem s.notifs toU).getD []) nid
          { type := "dm", from_ := fromU,
            data := NData.dPreview ((text.data.take 60).asString),
            id := nid, time := nt, read := false }) := by
    unfold FB.sendDMMessage FB.addNotification
    dsimp only
    rw [getItem_setItem_self]
  have hcap : ∀ (h : String) (l : List String), ((h :: l).take 30).length ≤ 30 := by
    intro h l
    rw [List.length_take]
    exact Nat.min_le_left 30 _
  have hhead : ∀ (h : String) (l : List String), ((h :: l).take 30).head? = some h := by
    intro h l
    rfl
  have hnd : ∀ (h : String) (l : List String), l.Nodup →
      ((h :: l.filter (fun x => x != h)).take 30).Nodup := by
    intro h l hl
    refine List.Nodup.sublist (List.take_sublist 30 _) ?_
    rw [List.nodup_cons]
    exact ⟨not_mem_filter_bne h l, hl.filter _⟩
  refine ⟨hfromIdx, htoIdx, ?_, ?_, ?_, ?_, ?_, ?_, hnotif⟩
  · rw [hfromIdx]
    exact hhead _ _
  · rw [htoIdx]
    exact hhead _ _
  · rw [hfromIdx]
    exact hnd _ _ hmy
  · rw [htoIdx]
    exact hnd _ _ htheir
  · rw [hfromIdx]
    exact hcap _ _
  · rw [htoIdx]
    exact hcap _ _

/-- Witness for `send_dm_updates_indexes` at a concrete store. -/
theorem send_dm_updates_indexes_witness :
    (getItem (FB.sendDMMessage "m1" "12:00" "t1" "n1" "nt" "alice" "bob" "hello"
        fbAliceBob).1.dmIndex "alice").getD []
      = ("bob" :: ((getItem fbAliceBob.dmIndex "alice").getD []).filter
          (fun x => x != "bob")).take 30 :=
  (send_dm_updates_indexes "m1" "12:00" "t1" "n1" "nt" "alice" "bob" "hello" fbAliceBob
    (by decide) (by decide) (by decide)).1

/-- C10: registration validation and initial state.  The username is
normalized by trimming, lower-casing, and removing every character outside
[a-z0-9_]; `register` rejects a normalized username shorter than 3
characters, then a password shorter than 6 characters, then an existing
record; otherwise it stores a user whose `friends`,
`friendRequestsSent`, `friendRequestsReceived` and `notifications` are
empty, whose status is "online" and whose onyx balance is 25. -/
theorem register_spec (createdAt username password email : String) (s : FB.State) :
    (∀ c ∈ (FB.normalizeUsername username).data,
        ('a' ≤ c ∧ c ≤ 'z') ∨ ('0' ≤ c ∧ c ≤ '9') ∨ c = '_') ∧
    ((FB.normalizeUsername username).length < 3 →
        FB.register createdAt username password email s
          = (s, { ok := false, msg := "Username must be 3+ characters (a-z, 0-9, _).",
                  user := none })) ∧
    (¬ (FB.normalizeUsername username).length < 3 → password.length < 6 →
        FB.register createdAt username password email s
          = (s, { ok := false, msg := "Password must be 6+ characters.", user := none })) ∧
    (¬ (FB.normalizeUsername username).length < 3 → ¬ password.length < 6 →
      ∀ u0, FB.getUserByName s (FB.normalizeUsername username) = some u0 →
        FB.register createdAt username password email s
          = (s, { ok := false, msg := "Username already taken.", user := none })) ∧
    (¬ (FB.normalizeUsername username).length < 3 → ¬ password.length < 6 →
      FB.getUserByName s (FB.normalizeUsername username) = none →
        ∃ u : FB.User,
          FB.register createdAt username password email s
            = ({ s with users := setItem s.users (FB.normalizeUsername username) u },
               { ok := true, msg := "", user := some u }) ∧
          FB.getUserByName (FB.register createdAt username password email s).1
            (FB.normalizeUsername username) = some u ∧
          u.username = FB.normalizeUsername username ∧ u.friends = [] ∧
          u.friendRequestsSent = [] ∧ u.friendRequestsReceived = [] ∧
          u.notifications = [] ∧ u.status = "online" ∧ u.onyx = 25) := by
  refine ⟨?_, ?_, ?_, ?_, ?_⟩
  · intro c hc
    unfold FB.normalizeUsername at hc
    have hc' := List.of_mem_filter hc
    exact of_decide_eq_true hc'
  · intro hlen
    unfold FB.register
    rw [if_pos hlen]
  · intro hlen hpw
    unfold FB.register
    rw [if_neg hlen, if_pos hpw]
  · intro hlen hpw u0 hu0
    unfold FB.register
    rw [if_neg hlen, if_neg hpw, hu0]
  · intro hlen hpw hnone
    have hnonempty : (FB.normalizeUsername username == "") = false := by
      refine beq_eq_false_iff_ne.mpr ?_
      intro he
      rw [he] at hlen
      exact hlen (by decide)
    refine ⟨{ username := FB.normalizeUsername username, password := password,
              email := email, displayName := FB.normalizeUsername username,
              pfp := none, banner := none, onyx := 25, status := "online",
              friends := [], friendRequestsSent := [], friendRequestsReceived := [],
              bastions := [], notifications := [], radianceUntil := none,
              lastDaily := none, createdAt := createdAt },
            ?_, ?_, rfl, rfl, rfl, rfl, rfl, rfl, rfl⟩
    · unfold FB.register
      rw [if_neg hlen, if_neg hpw, hnone]
    · unfold FB.register
      rw [if_neg hlen, if_neg hpw, hnone]
      dsimp only
      unfold FB.getUserByName
      rw [hnonempty]
      simp only [Bool.false_eq_true, if_false]
      rw [getItem_setItem_self]

/-- Witness for `register_spec`: registering "Alice!" normalizes to
"alice" and creates the expected fresh record. -/
theorem register_spec_witness :
    ∃ u : FB.User,
      FB.register "2024" "Alice!" "hunter22" "" FB.emptyState
        = ({ FB.emptyState with
              users := setItem FB.emptyState.users (FB.normalizeUsername "Alice!") u },
           { ok := true, msg := "", user := some u }) ∧
      FB.getUserByName (FB.register "2024" "Alice!" "hunter22" "" FB.emptyState).1
        (FB.normalizeUsername "Alice!") = some u ∧
      u.username = FB.normalizeUsername "Alice!" ∧ u.friends = [] ∧
      u.friendRequestsSent = [] ∧ u.friendRequestsReceived = [] ∧
      u.notifications = [] ∧ u.status = "online" ∧ u.onyx = 25 :=
  (register_spec "2024" "Alice!" "hunter22" "" FB.emptyState).2.2.2.2
    (by decide) (by decide) (by decide)
